import Mathlib

/-!
Verification of the color extraction and selection pipeline of
warp-theme-creator.

The Python modules `warp_theme_creator/utils.py`,
`warp_theme_creator/color_extractor.py` and
`warp_theme_creator/screenshots.py` are shallowly embedded below:

* Python floats are modelled as exact rationals (`ℚ`), with Python's
  banker's rounding (`round`) modelled by `roundEven` and `int(...)`
  truncation by `pyTrunc`.
* Python exceptions are modelled with `Option`/`Except`: a function that
  can raise returns `none`/`.error` on the raising inputs.
* `list(set(...))` deduplication is modelled by `List.dedup`; since
  Python's set iteration order is unspecified, properties about such
  results are stated up to set membership.
* The screenshot image only enters the pipeline through the edge-pixel
  test of `is_background_color`; it is abstracted as a predicate
  `edge : String → Bool` giving the result of that edge scan.
-/

namespace WarpTheme

/-- Value of a hexadecimal digit character, `none` for non-hex characters
(used to model Python's `int(s, 16)`, which raises on bad input). -/
def hexVal (c : Char) : Option ℕ :=
  if '0' ≤ c ∧ c ≤ '9' then some (c.toNat - 48)
  else if 'a' ≤ c ∧ c ≤ 'f' then some (c.toNat - 87)
  else if 'A' ≤ c ∧ c ≤ 'F' then some (c.toNat - 55)
  else none

/-- Model of Python `int(s, 16)` on a digit list: fails on the empty
string and on any non-hex character. -/
def parseHexChars (cs : List Char) : Option ℕ :=
  if cs.isEmpty then none
  else cs.foldlM (fun acc c => (hexVal c).map fun v => acc * 16 + v) 0

/-- Lowercase hexadecimal digit for a value `< 16`. -/
def hexDigitChar (n : ℕ) : Char :=
  if n < 10 then Char.ofNat (48 + n) else Char.ofNat (87 + n)

/-- Hexadecimal digit list of a natural number (no padding).  The fuel
argument (instantiated with `n + 1`, which always suffices since `n / 16`
shrinks) keeps the recursion structural so that the kernel can reduce
it. -/
def natToHexAux : ℕ → ℕ → List Char
  | 0, _ => []
  | fuel + 1, n =>
    if n < 16 then [hexDigitChar n]
    else natToHexAux fuel (n / 16) ++ [hexDigitChar (n % 16)]

/-- Model of Python's format spec `02x`: lowercase hex, left-padded with
`0` to at least two digits. -/
def py02x (n : ℕ) : String :=
  let ds := natToHexAux (n + 1) n
  ⟨if ds.length < 2 then '0' :: ds else ds⟩

/-- Model of Python `int(x)` on a float: truncation toward zero. -/
def pyTrunc (x : ℚ) : ℤ :=
  if x < 0 then -⌊-x⌋ else ⌊x⌋

/-- Model of Python `round(x)` (round half to even) producing an integer. -/
def roundEven (x : ℚ) : ℤ :=
  if x - ⌊x⌋ < 1/2 then ⌊x⌋
  else if (1 : ℚ)/2 < x - ⌊x⌋ then ⌊x⌋ + 1
  else if ⌊x⌋ % 2 = 0 then ⌊x⌋ else ⌊x⌋ + 1

/-- Model of Python `x % m` on floats, for a positive modulus `m`. -/
def pymod (x m : ℚ) : ℚ := x - m * ⌊x / m⌋

namespace U
/-! Embedding of `warp_theme_creator/utils.py` (`rgb_to_hsl`,
`hsl_to_rgb`), lines 81-161. -/

/-- Body of `rgb_to_hsl` after the initial division of the three
channels by 255 (utils.py lines 92-119). -/
def rgbToHslQ (r' g' b' : ℚ) : ℤ × ℚ × ℚ :=
  let cmax := max r' (max g' b')
  let cmin := min r' (min g' b')
  let delta := cmax - cmin
  let h0 : ℚ :=
    if delta ≠ 0 then
      if cmax = r' then pymod ((g' - b') / delta) 6
      else if cmax = g' then (b' - r') / delta + 2
      else (r' - g') / delta + 4
    else 0
  let h1 : ℤ := roundEven (h0 * 60)
  let h : ℤ := if h1 < 0 then h1 + 360 else h1
  let l : ℚ := (cmax + cmin) / 2
  let s : ℚ := if delta ≠ 0 then delta / (1 - |2 * l - 1|) else 0
  (h, s, l)

/-- `rgb_to_hsl` (utils.py lines 81-119): integer hue in degrees after
Python rounding, rational saturation and lightness. -/
def rgbToHsl (r g b : ℕ) : ℤ × ℚ × ℚ :=
  rgbToHslQ ((r : ℚ) / 255) ((g : ℚ) / 255) ((b : ℚ) / 255)

/-- The sequential `t < 0 → t += 1` / `t > 1 → t -= 1` adjustment at the
top of `hue_to_rgb` (utils.py lines 134-137).  After the first branch
fires the value is at most 1, so the sequential pair of `if` statements
equals this nested form. -/
def hueAdjust (t : ℚ) : ℚ :=
  if t < 0 then t + 1 else if t > 1 then t - 1 else t

/-- The inner `hue_to_rgb` helper of `hsl_to_rgb` (utils.py lines
133-144). -/
def hueToRgb (p q t0 : ℚ) : ℚ :=
  if hueAdjust t0 < 1/6 then p + (q - p) * 6 * hueAdjust t0
  else if hueAdjust t0 < 1/2 then q
  else if hueAdjust t0 < 2/3 then p + (q - p) * (2/3 - hueAdjust t0) * 6
  else p

/-- `hsl_to_rgb` (utils.py lines 122-161): integer channels after Python
rounding. -/
def hslToRgb (h s l : ℚ) : ℤ × ℤ × ℤ :=
  let h' := h / 360
  let rgb : ℚ × ℚ × ℚ :=
    if s = 0 then (l, l, l)
    else
      let q := if l < 1/2 then l * (1 + s) else l + s - l * s
      let p := 2 * l - q
      (hueToRgb p q (h' + 1/3), hueToRgb p q h', hueToRgb p q (h' - 1/3))
  (roundEven (rgb.1 * 255), roundEven (rgb.2.1 * 255), roundEven (rgb.2.2 * 255))

/-- The RGB → HSL → RGB round trip of utils.py. -/
def roundTrip (r g b : ℕ) : ℤ × ℤ × ℤ :=
  let hsl := rgbToHsl r g b
  hslToRgb (hsl.1 : ℚ) hsl.2.1 hsl.2.2

/-- The round trip on already-normalized channels (`roundTrip` composed
after division by 255); proof infrastructure for the round-trip bound. -/
def rtQ (r' g' b' : ℚ) : ℤ × ℤ × ℤ :=
  hslToRgb ((rgbToHslQ r' g' b').1 : ℚ) (rgbToHslQ r' g' b').2.1 (rgbToHslQ r' g' b').2.2

end U

namespace CE
/-! Embedding of `warp_theme_creator/color_extractor.py` (class
`ColorExtractor`).

Perceived brightness appears in the source as the float
`(0.299*r + 0.587*g + 0.114*b) / 255` compared against constant
thresholds.  All such comparisons are embedded as the exactly equivalent
integer comparisons on `299*r + 587*g + 114*b` (the brightness scaled by
`255000`), e.g. `brightness < 0.5` becomes `299*r+587*g+114*b < 127500`.
Similarly `int(x)` of the nonnegative rational products appearing in
`_brighten_color` / `_darken_color` / `_adjust_color_harmony` is embedded
as exact integer floor division. -/

/-- `ColorExtractor.hex_to_rgb` (color_extractor.py lines 44-60):
strips leading `#`, duplicates the nibbles of a 3-digit code, then parses
the slices `[0:2]`, `[2:4]`, `[4:6]`; `none` models the `ValueError`
Python raises on empty or non-hex slices. -/
def hexToRgb (s : String) : Option (ℕ × ℕ × ℕ) := do
  let cs0 := s.toList.dropWhile (· = '#')
  let cs := if cs0.length = 3 then cs0.flatMap (fun c => [c, c]) else cs0
  let r ← parseHexChars (cs.take 2)
  let g ← parseHexChars ((cs.drop 2).take 2)
  let b ← parseHexChars ((cs.drop 4).take 2)
  pure (r, g, b)

/-- `ColorExtractor.rgb_to_hex` (lines 62-72): lowercase `02x` format for
each channel, `#`-prefixed. -/
def rgbToHex (r g b : ℕ) : String :=
  "#" ++ py02x r ++ py02x g ++ py02x b

/-- Scaled perceived brightness `255000 × brightness` of
`_get_color_brightness` (lines 380-391), as an integer. -/
def brightness1000 (s : String) : Option ℕ :=
  (hexToRgb s).map fun t => 299 * t.1 + 587 * t.2.1 + 114 * t.2.2

/-- `_get_color_brightness` (lines 380-391) as an exact rational in
`[0,1]`: `(0.299*r + 0.587*g + 0.114*b)/255`. -/
def getColorBrightness (s : String) : Option ℚ :=
  (hexToRgb s).map fun t => (299 * t.1 + 587 * t.2.1 + 114 * t.2.2 : ℚ) / 255000

/-- `_is_dark_color` (lines 506-516): brightness `< 0.5`, i.e.
`299*r+587*g+114*b < 127500`. -/
def isDarkColor (s : String) : Option Bool :=
  (brightness1000 s).map fun bb => decide (bb < 127500)

/-- The darkness flags of a candidate list, in order (the value of the
`self._is_dark_color(c)` calls of the two comprehensions in
`select_background_color`); `none` as soon as one parse raises. -/
def mapIsDark : List String → Option (List Bool)
  | [] => some []
  | c :: rest => do
    let f ← isDarkColor c
    let fs ← mapIsDark rest
    pure (f :: fs)

/-- `select_background_color` (lines 458-489), including the hardcoded
special case for the list containing `#FFFFFF`, `#F0F0F0` and `#EEEEEE`.
The two dark/light comprehensions of the source each evaluate
`_is_dark_color` on every element; `mapIsDark` models the exception
behavior of those parses. -/
def selectBackgroundColor (colors : List String) (preferDark : Bool) : Option String :=
  if colors.isEmpty then some (if preferDark then "#1E1E1E" else "#FFFFFF")
  else if "#FFFFFF" ∈ colors ∧ "#F0F0F0" ∈ colors ∧ "#EEEEEE" ∈ colors then some "#1E1E1E"
  else do
    let flags ← mapIsDark colors
    let paired := colors.zip flags
    let dark := (paired.filter fun p => p.2).map Prod.fst
    let light := (paired.filter fun p => !p.2).map Prod.fst
    pure (if preferDark then
            match dark with
            | d :: _ => d
            | [] =>
              match light with
              | l :: _ => l
              | [] => "#1E1E1E"
          else
            match light with
            | l :: _ => l
            | [] =>
              match dark with
              | d :: _ => d
              | [] => "#FFFFFF")

/-- `select_foreground_color` (lines 491-504): white text on a dark
background, black text on a light one. -/
def selectForegroundColor (background : String) : Option String :=
  (isDarkColor background).map fun d => if d then "#FFFFFF" else "#000000"

/-- `_color_complement` (lines 518-529). -/
def colorComplement (s : String) : Option String :=
  (hexToRgb s).map fun t => rgbToHex (255 - t.1) (255 - t.2.1) (255 - t.2.2)

/-- `_brighten_color` (lines 716-739) with its fixed factor `1.3`:
`adjustment = 1.3 * (1 - brightness*0.5)`, each channel becomes
`min(255, int(channel * adjustment))`.  With `bb = 299r+587g+114b` this
is exactly `min 255 (c * 13 * (510000 - bb) / 5100000)`. -/
def brightenColor (s : String) : Option String := do
  let (r, g, b) ← hexToRgb s
  let bb := 299 * r + 587 * g + 114 * b
  let adj := fun c => min 255 (c * 13 * (510000 - bb) / 5100000)
  pure (rgbToHex (adj r) (adj g) (adj b))

/-- `_darken_color` (lines 741-763) with its fixed factor `0.8`:
`adjustment = 0.8 * (0.5 + brightness*0.5)`, each channel becomes
`max(0, int(channel * adjustment))`, i.e. `c * 8 * (255000 + bb) / 5100000`. -/
def darkenColor (s : String) : Option String := do
  let (r, g, b) ← hexToRgb s
  let bb := 299 * r + 587 * g + 114 * b
  let adj := fun c => max 0 (c * 8 * (255000 + bb) / 5100000)
  pure (rgbToHex (adj r) (adj g) (adj b))

/-- Loop body of `_adjust_color_harmony` (lines 531-559) for one color:
`channel' = min(255, max(0, int(channel*0.85 + accent_channel*0.15)))`,
i.e. `min 255 (max 0 ((17*c + 3*ac) / 20))`. -/
def harmonizeOne (ar ag ab : ℕ) (s : String) : Option String := do
  let (r, g, b) ← hexToRgb s
  let f := fun c ac => min 255 (max 0 ((17 * c + 3 * ac) / 20))
  pure (rgbToHex (f r ar) (f g ag) (f b ab))

/-- The 16 named slots returned by `generate_terminal_colors`. -/
structure TerminalColors where
  black : String
  red : String
  green : String
  yellow : String
  blue : String
  magenta : String
  cyan : String
  white : String
  bright_black : String
  bright_red : String
  bright_green : String
  bright_yellow : String
  bright_blue : String
  bright_magenta : String
  bright_cyan : String
  bright_white : String
deriving DecidableEq, Repr

/-- `generate_terminal_colors` (lines 561-665).  The ten harmonized slots
are bound one by one in the list order
`[red, green, yellow, magenta, cyan, bright_red, bright_green,
bright_yellow, bright_magenta, bright_cyan]` used by the source's single
`_adjust_color_harmony` call. -/
def generateTerminalColors (accent background : String) : Option TerminalColors := do
  let bb ← brightness1000 background
  let isDarkBg := bb < 127500
  let aRGB ← hexToRgb accent
  if isDarkBg then
    let brightAccent ← brightenColor accent
    let _ ← colorComplement accent
    let black := if bb < 25500 then background else "#2D2A2E"
    let red ← harmonizeOne aRGB.1 aRGB.2.1 aRGB.2.2 "#FF5555"
    let green ← harmonizeOne aRGB.1 aRGB.2.1 aRGB.2.2 "#50FA7B"
    let yellow ← harmonizeOne aRGB.1 aRGB.2.1 aRGB.2.2 "#F1FA8C"
    let magenta ← harmonizeOne aRGB.1 aRGB.2.1 aRGB.2.2 "#FF79C6"
    let cyan ← harmonizeOne aRGB.1 aRGB.2.1 aRGB.2.2 "#8BE9FD"
    let bRed ← harmonizeOne aRGB.1 aRGB.2.1 aRGB.2.2 "#FF6E67"
    let bGreen ← harmonizeOne aRGB.1 aRGB.2.1 aRGB.2.2 "#5AF78E"
    let bYellow ← harmonizeOne aRGB.1 aRGB.2.1 aRGB.2.2 "#F4F99D"
    let bMagenta ← harmonizeOne aRGB.1 aRGB.2.1 aRGB.2.2 "#FF92D0"
    let bCyan ← harmonizeOne aRGB.1 aRGB.2.1 aRGB.2.2 "#9AEDFE"
    pure { black := black, red := red, green := green, yellow := yellow,
           blue := accent, magenta := magenta, cyan := cyan, white := "#BFBFBF",
           bright_black := "#727072", bright_red := bRed, bright_green := bGreen,
           bright_yellow := bYellow, bright_blue := brightAccent,
           bright_magenta := bMagenta, bright_cyan := bCyan, bright_white := "#F8F8F2" }
  else
    let darkerAccent ← darkenColor accent
    let _ ← colorComplement accent
    let white := if bb > 229500 then background else "#F8F8F2"
    let red ← harmonizeOne aRGB.1 aRGB.2.1 aRGB.2.2 "#E53935"
    let green ← harmonizeOne aRGB.1 aRGB.2.1 aRGB.2.2 "#43A047"
    let yellow ← harmonizeOne aRGB.1 aRGB.2.1 aRGB.2.2 "#FFB300"
    let magenta ← harmonizeOne aRGB.1 aRGB.2.1 aRGB.2.2 "#D81B60"
    let cyan ← harmonizeOne aRGB.1 aRGB.2.1 aRGB.2.2 "#00ACC1"
    let bRed ← harmonizeOne aRGB.1 aRGB.2.1 aRGB.2.2 "#FF5252"
    let bGreen ← harmonizeOne aRGB.1 aRGB.2.1 aRGB.2.2 "#69F0AE"
    let bYellow ← harmonizeOne aRGB.1 aRGB.2.1 aRGB.2.2 "#FFD740"
    let bMagenta ← harmonizeOne aRGB.1 aRGB.2.1 aRGB.2.2 "#FF4081"
    let bCyan ← harmonizeOne aRGB.1 aRGB.2.1 aRGB.2.2 "#64FFDA"
    pure { black := "#2D2A2E", red := red, green := green, yellow := yellow,
           blue := accent, magenta := magenta, cyan := cyan, white := white,
           bright_black := "#727072", bright_red := bRed, bright_green := bGreen,
           bright_yellow := bYellow, bright_blue := darkerAccent,
           bright_magenta := bMagenta, bright_cyan := bCyan, bright_white := "#FFFFFF" }

/-- Word character of Python's `\b` boundary (ASCII view): letters,
digits, underscore. -/
def isWordChar (c : Char) : Bool := c.isAlphanum || c = '_'

/-- Word boundary after a hex-digit run: end of input or a non-word
character. -/
def boundaryAt : List Char → Bool
  | [] => true
  | c :: _ => !isWordChar c

/-- Attempted match of the group of `#([0-9a-fA-F]{3}|[0-9a-fA-F]{6})\b`
just after a `#`: the regex first tries three hex digits followed by a
word boundary, then six.  Returns the matched digits and the rest of the
input. -/
def tryHexMatch (cs : List Char) : Option (List Char × List Char) :=
  let c3 := cs.take 3
  if c3.length = 3 ∧ c3.all (fun c => (hexVal c).isSome) ∧ boundaryAt (cs.drop 3) then
    some (c3, cs.drop 3)
  else
    let c6 := cs.take 6
    if c6.length = 6 ∧ c6.all (fun c => (hexVal c).isSome) ∧ boundaryAt (cs.drop 6) then
      some (c6, cs.drop 6)
    else none

/-- `re.findall` of the hex pattern of `extract_css_colors` (line 149):
scan left to right, on failure advance one character, on success continue
after the match.  The fuel argument (instantiated with the input length)
makes the recursion structural; every step consumes at least one
character, so the fuel never runs out on the actual calls. -/
def hexFindAux : ℕ → List Char → List (List Char)
  | 0, _ => []
  | _, [] => []
  | fuel + 1, c :: rest =>
    if c = '#' then
      match tryHexMatch rest with
      | some (ds, rest2) => ds :: hexFindAux fuel rest2
      | none => hexFindAux fuel rest
    else hexFindAux fuel rest

/-- All hex-pattern matches of a CSS string. -/
def hexFind (css : String) : List (List Char) :=
  hexFindAux css.toList.length css.toList

/-- Parse of `\s*(\d+)\s*` followed by the given separator character:
returns the number and the rest. -/
def parseNumSep (sep : Char) (cs : List Char) : Option (ℕ × List Char) :=
  let cs1 := cs.dropWhile (·.isWhitespace)
  let digits := cs1.takeWhile (·.isDigit)
  if digits.isEmpty then none
  else
    let n := digits.foldl (fun acc c => acc * 10 + (c.toNat - 48)) 0
    let cs2 := (cs1.dropWhile (·.isDigit)).dropWhile (·.isWhitespace)
    match cs2 with
    | d :: rest => if d = sep then some (n, rest) else none
    | [] => none

/-- Body of the rgb pattern
`rgb\(\s*([0-9]+)\s*,\s*([0-9]+)\s*,\s*([0-9]+)\s*\)` after the literal
`rgb(`. -/
def tryRgbBody (cs : List Char) : Option ((ℕ × ℕ × ℕ) × List Char) := do
  let (r, cs1) ← parseNumSep ',' cs
  let (g, cs2) ← parseNumSep ',' cs1
  let (b, cs3) ← parseNumSep ')' cs2
  pure ((r, g, b), cs3)

/-- `re.findall` of the rgb pattern of `extract_css_colors` (line 150),
fueled like `hexFindAux`. -/
def rgbFindAux : ℕ → List Char → List (ℕ × ℕ × ℕ)
  | 0, _ => []
  | _, [] => []
  | fuel + 1, c :: rest =>
    if c = 'r' then
      match rest with
      | 'g' :: 'b' :: '(' :: rest2 =>
        match tryRgbBody rest2 with
        | some (t, rest3) => t :: rgbFindAux fuel rest3
        | none => rgbFindAux fuel rest
      | _ => rgbFindAux fuel rest
    else rgbFindAux fuel rest

/-- All rgb-pattern matches of a CSS string. -/
def rgbFind (css : String) : List (ℕ × ℕ × ℕ) :=
  rgbFindAux css.toList.length css.toList

/-- `extract_css_colors` (lines 133-172).  Hex matches are appended in
their original form (the source computes `full_hex` for 3-digit matches
but appends `f'#{c}'`, keeping the shorthand); rgb matches go through
`rgb_to_hex`.  Python's `list(set(result))` has unspecified order and is
modelled by `List.dedup`; properties are stated up to set membership. -/
def extractCssColors (css : String) : List String :=
  if css = "" then []
  else
    let hexs := (hexFind css).map fun ds => "#" ++ String.mk ds
    let rgbs := (rgbFind css).map fun t => rgbToHex t.1 t.2.1 t.2.2
    (hexs ++ rgbs).dedup

end CE

namespace SS
/-! Embedding of `warp_theme_creator/screenshots.py` (class
`ScreenshotExtractor`), theme-selection part (lines 89-568).

As in `CE`, the float brightness `0.299*r+0.587*g+0.114*b` (0-255 scale
here) compared against thresholds 128 / 240 is embedded as the exact
integer comparison of `299*r+587*g+114*b` against 128000 / 240000, and
the accent loop's `np.sqrt(d2) < 50` as the exact `d2 < 2500`.

The screenshot image appears only through the edge-sampling part of
`is_background_color`; it is abstracted as a predicate
`edge : String → Bool` giving the outcome of that edge scan for each
candidate color. -/

/-- Hex parsing as done inline throughout screenshots.py
(`color.lstrip('#')`, then `int(hex[0:2],16)`, `int(hex[2:4],16)`,
`int(hex[4:6],16)`); no 3-digit expansion here. -/
def hexToRgb (s : String) : Option (ℕ × ℕ × ℕ) := do
  let cs := s.toList.dropWhile (· = '#')
  let r ← parseHexChars (cs.take 2)
  let g ← parseHexChars ((cs.drop 2).take 2)
  let b ← parseHexChars ((cs.drop 4).take 2)
  pure (r, g, b)

/-- Scaled perceived brightness `1000 × get_color_brightness` (lines
101-121), an integer in `[0, 255000]`. -/
def brightness1000 (s : String) : Option ℕ :=
  (hexToRgb s).map fun t => 299 * t.1 + 587 * t.2.1 + 114 * t.2.2

/-- `is_light_color` with its default threshold 128.0 (lines 123-134):
brightness `> 128`, i.e. `299*r+587*g+114*b > 128000`. -/
def isLightColor (s : String) : Option Bool :=
  (brightness1000 s).map fun bb => decide (bb > 128000)

/-- `is_background_color` (lines 246-310): near-white short-circuit
(brightness `> 240`), otherwise the edge-pixel scan abstracted by
`edge`. -/
def isBackgroundColor (edge : String → Bool) (s : String) : Option Bool :=
  (brightness1000 s).map fun bb => if bb > 240000 then true else edge s

/-- `_analyze_and_print_colors` (lines 328-354): scans the dominant
colors, remembering the last 6-digit candidate whose RGB satisfies
`r > 150 ∧ g < 100 ∧ b < 100`; `none` (outer) models a parse exception
on a 6-character non-hex color. -/
def analyzeAndPrintColors (dc : List (String × ℚ)) : Option (Option String) :=
  dc.foldlM (fun acc p =>
    let cs := p.1.toList.dropWhile (· = '#')
    if cs.length = 6 then do
      let r ← parseHexChars (cs.take 2)
      let g ← parseHexChars ((cs.drop 2).take 2)
      let b ← parseHexChars ((cs.drop 4).take 2)
      pure (if r > 150 ∧ g < 100 ∧ b < 100 then some p.1 else acc)
    else pure acc) none

/-- The per-color loop body of `_categorize_colors` (lines 370-378):
each dominant color tagged with `is_light` and `is_background`; `none`
models a parse exception. -/
def tagColors (edge : String → Bool) : List (String × ℚ) →
    Option (List (String × ℚ × Bool × Bool))
  | [] => some []
  | p :: rest => do
    let isL ← isLightColor p.1
    let isBg ← isBackgroundColor edge p.1
    let others ← tagColors edge rest
    pure ((p.1, p.2, isL, isBg) :: others)

/-- `_categorize_colors` (lines 356-393) with its two fallbacks. -/
def categorizeColors (edge : String → Bool) (dc : List (String × ℚ)) :
    Option (List (String × ℚ × Bool) × List (String × ℚ × Bool)) := do
  let tagged ← tagColors edge dc
  let untag : (String × ℚ × Bool × Bool) → String × ℚ × Bool :=
    fun t => (t.1, t.2.1, t.2.2.1)
  let pb0 := (tagged.filter fun t => t.2.2.2).map untag
  let pa0 := (tagged.filter fun t => !t.2.2.2).map untag
  let pb := if pb0.isEmpty then tagged.map untag else pb0
  let pa := if pa0.isEmpty then
      (tagged.filter fun t => !(pb.map (fun u => u.1)).contains t.1).map untag
    else pa0
  pure (pb, pa)

/-- `_select_background` (lines 395-424), including the hardcoded
`#333333` scan. -/
def selectBackground (pb : List (String × ℚ × Bool)) (preferLight : Bool) : String :=
  if preferLight = false ∧ pb.any (fun t => t.1 == "#333333") then "#333333"
  else if preferLight then
    match pb.filter (fun t => t.2.2) with
    | t :: _ => t.1
    | [] => "#FFFFFF"
  else
    match pb.filter (fun t => !t.2.2) with
    | t :: _ => t.1
    | [] => "#1E1E1E"

/-- The candidate loop of `_select_accent` (lines 449-482): skips
non-6-digit colors, parses candidate and background, skips candidates
within RGB distance 50 of the background (`d² < 2500`), and picks the
first whose light/dark polarity matches the foreground's.  The outer
`Option` models parse exceptions, the inner one the `accent` variable. -/
def accentLoop (pa : List (String × ℚ × Bool)) (background : String) (fgIsLight : Bool) :
    Option (Option String) :=
  match pa with
  | [] => some none
  | (color, _, isL) :: rest =>
    let cs := color.toList.dropWhile (· = '#')
    if cs.length = 6 then do
      let r ← parseHexChars (cs.take 2)
      let g ← parseHexChars ((cs.drop 2).take 2)
      let b ← parseHexChars ((cs.drop 4).take 2)
      let (br, bg2, bb) ← hexToRgb background
      let d2 : ℤ := ((r:ℤ) - br) * ((r:ℤ) - br) + ((g:ℤ) - bg2) * ((g:ℤ) - bg2)
        + ((b:ℤ) - bb) * ((b:ℤ) - bb)
      if d2 < 2500 then accentLoop rest background fgIsLight
      else if (isL ∧ fgIsLight) ∨ (¬isL ∧ ¬fgIsLight) then pure (some color)
      else accentLoop rest background fgIsLight
    else accentLoop rest background fgIsLight

/-- `_select_accent` (lines 426-509): the loop, then the red-accent
override (highest priority), then first-accent fallback, the hardcoded
`#C6262D`/`#C6262E` check, and the `#0087D7` default. -/
def selectAccent (pa : List (String × ℚ × Bool)) (dc : List (String × ℚ))
    (background foreground : String) (redkey : Option String) : Option String := do
  let fgIsLight ← isLightColor foreground
  let loopRes ← accentLoop pa background fgIsLight
  match redkey with
  | some c => pure c
  | none =>
    match loopRes with
    | some a =>
      if dc.any (fun p => p.1 == "#C6262D") then pure "#C6262D"
      else if dc.any (fun p => p.1 == "#C6262E") then pure "#C6262E"
      else pure a
    | none =>
      match pa with
      | t :: _ => pure t.1
      | [] =>
        if dc.any (fun p => p.1 == "#C6262D") then pure "#C6262D"
        else if dc.any (fun p => p.1 == "#C6262E") then pure "#C6262E"
        else pure "#0087D7"

/-- Result triple of `select_colors_for_theme`. -/
structure ThemeColors where
  background : String
  foreground : String
  accent : String
deriving DecidableEq, Repr

/-- `_get_fallback_colors` (lines 312-326). -/
def fallbackColors (preferLight : Bool) : ThemeColors :=
  { background := if preferLight then "#FFFFFF" else "#1E1E1E",
    foreground := if preferLight then "#1E1E1E" else "#FFFFFF",
    accent := "#0087D7" }

/-- `select_colors_for_theme` (lines 511-568), including the hardcoded
special case for a 4-entry dominant list containing `#333333` with
`prefer_light` false. -/
def selectColorsForTheme (edge : String → Bool) (dc : List (String × ℚ))
    (preferLight : Bool) : Option ThemeColors :=
  if dc.length = 4 ∧ dc.any (fun p => p.1 == "#333333") ∧ preferLight = false then
    some { background := "#333333", foreground := "#FFFFFF",
           accent := if dc.any (fun p => p.1 == "#FF0000") then "#FF0000" else "#0087D7" }
  else if dc.isEmpty then some (fallbackColors preferLight)
  else do
    let redkey ← analyzeAndPrintColors dc
    let pbpa ← categorizeColors edge dc
    let background := selectBackground pbpa.1 preferLight
    let bgLight ← isLightColor background
    let foreground := if !bgLight then "#FFFFFF" else "#1E1E1E"
    let accent ← selectAccent pbpa.2 dc background foreground redkey
    pure { background := background, foreground := foreground, accent := accent }

end SS

namespace IMG
/-! Embedding of `extract_image_colors` / `extract_image_colors_enhanced`
(color_extractor.py lines 231-342).  The PIL / ColorThief library calls
are abstracted as an arbitrary `ImageLib`; every fallible call returns
`Except`, and Python's `try/except Exception` blocks are modelled by
`pyCatch`. -/

/-- Abstract interface of the image libraries used by the two
extraction functions: `Image.open` + format check (lines 246-253 /
278-285), `ColorThief.get_palette` (lines 256-257 / 292-293), and the
whole PIL edge-pixel analysis block (lines 303-335) as one fallible
computation returning the top edge colors. -/
structure ImageLib (ε Data Img : Type) where
  imgOpen : Data → Except ε Img
  imgFormat : Img → Option String
  getPalette : Data → ℕ → Except ε (List (ℕ × ℕ × ℕ))
  edgeAnalysis : Data → Except ε (List (ℕ × ℕ × ℕ))

/-- Python `try/except Exception` around a fallible computation. -/
def pyCatch {ε α : Type} (x : Except ε α) (handler : ε → Except ε α) : Except ε α :=
  match x with
  | .error e => handler e
  | .ok a => .ok a

/-- `extract_image_colors` (lines 231-262): inner try/except returns `[]`
on decode failure; a palette failure propagates to the outer handler,
which also returns `[]`. -/
def extractImageColors {ε Data Img : Type} (lib : ImageLib ε Data Img)
    (data : Data) (colorCount : ℕ) : Except ε (List String) :=
  pyCatch
    (match lib.imgOpen data with
     | .error _ => .ok []
     | .ok img =>
       match lib.imgFormat img with
       | none => .ok []
       | some _ =>
         match lib.getPalette data colorCount with
         | .error e => .error e
         | .ok palette => .ok (palette.map fun t => CE.rgbToHex t.1 t.2.1 t.2.2))
    (fun _ => .ok [])

/-- `extract_image_colors_enhanced` (lines 264-342): decode failure
returns `[]`; a ColorThief failure is caught and contributes nothing; the
PIL edge-analysis failure is caught and contributes nothing; the result
is the deduplicated union. -/
def extractImageColorsEnhanced {ε Data Img : Type} (lib : ImageLib ε Data Img)
    (data : Data) (colorCount : ℕ) : Except ε (List String) :=
  pyCatch
    (match lib.imgOpen data with
     | .error _ => .ok []
     | .ok img =>
       match lib.imgFormat img with
       | none => .ok []
       | some _ =>
         let colors1 : List String :=
           match lib.getPalette data colorCount with
           | .ok palette => palette.map fun t => CE.rgbToHex t.1 t.2.1 t.2.2
           | .error _ => []
         let colors2 : List String :=
           match lib.edgeAnalysis data with
           | .ok edges => edges.map fun t => CE.rgbToHex t.1 t.2.1 t.2.2
           | .error _ => []
         .ok ((colors1 ++ colors2).dedup))
    (fun _ => .ok [])

end IMG

/-- Concrete `ImageLib` in which decoding succeeds, quantization
(`ColorThief.get_palette`) raises, and the edge analysis returns the
single color (1,2,3); exhibits the behavior of the enhanced extractor
under a quantization failure. -/
def failPaletteLib : IMG.ImageLib Unit Unit Unit :=
  { imgOpen := fun _ => .ok (), imgFormat := fun _ => some "PNG",
    getPalette := fun _ _ => .error (), edgeAnalysis := fun _ => .ok [(1, 2, 3)] }

/-- The concrete palette of `generate_terminal_colors "#FF0000" "#000000"`
(dark branch; the background is darker than 0.1 so `black` is the
background itself). -/
def palRedOnBlack : CE.TerminalColors :=
  { black := "#000000", red := "#ff4848", green := "#6ad468", yellow := "#f3d477",
    blue := "#FF0000", magenta := "#ff66a8", cyan := "#9cc6d7", white := "#BFBFBF",
    bright_black := "#727072", bright_red := "#ff5d57", bright_green := "#72d178",
    bright_yellow := "#f5d385", bright_blue := "#ff0000", bright_magenta := "#ff7cb0",
    bright_cyan := "#a9c9d7", bright_white := "#F8F8F2" }

end WarpTheme

namespace WarpTheme

lemma roundEven_sub_abs (x : ℚ) : |(roundEven x : ℚ) - x| ≤ 1/2 := by
  unfold roundEven
  have h1 : (⌊x⌋ : ℚ) ≤ x := Int.floor_le x
  have h2 : x < ⌊x⌋ + 1 := Int.lt_floor_add_one x
  split_ifs with ha hb hc <;> rw [abs_le] <;> constructor <;> push_cast <;> linarith

lemma roundEven_intCast (n : ℤ) : roundEven (n : ℚ) = n := by
  unfold roundEven
  rw [Int.floor_intCast]
  norm_num

lemma roundEven_zero : roundEven 0 = 0 := by
  have h := roundEven_intCast 0
  simpa using h

lemma roundEven_nonneg (x : ℚ) (hx : 0 ≤ x) : 0 ≤ roundEven x := by
  unfold roundEven
  have := Int.floor_nonneg.mpr hx
  split_ifs <;> omega

lemma roundEven_close (x : ℚ) (c : ℤ) (h : |x - (c : ℚ)| ≤ 17/8) :
    |roundEven x - c| ≤ 2 := by
  have h1 := roundEven_sub_abs x
  have h2 : |(roundEven x : ℚ) - c| ≤ 21/8 := by
    have h3 : (roundEven x : ℚ) - c = ((roundEven x : ℚ) - x) + (x - c) := by ring
    calc |(roundEven x : ℚ) - c| ≤ |(roundEven x : ℚ) - x| + |x - c| := by
          rw [h3]; exact abs_add _ _
    _ ≤ 1/2 + 17/8 := add_le_add h1 h
    _ = 21/8 := by norm_num
  have h4 : ((|roundEven x - c| : ℤ) : ℚ) ≤ 21/8 := by
    rw [Int.cast_abs, Int.cast_sub]
    exact h2
  have h5 : |roundEven x - c| < 3 := by
    have h6 := h4.trans_lt (by norm_num : (21:ℚ)/8 < 3)
    exact_mod_cast h6
  omega

lemma roundEven_exact (c : ℕ) : roundEven ((c : ℚ)/255 * 255) = c := by
  have h : ((c : ℚ)/255) * 255 = ((c : ℤ) : ℚ) := by
    push_cast
    field_simp
  rw [h, roundEven_intCast]

lemma pymod_eq_self (x : ℚ) (h0 : 0 ≤ x) (h6 : x < 6) : pymod x 6 = x := by
  unfold pymod
  have hf : ⌊x / 6⌋ = 0 := by
    rw [Int.floor_eq_zero_iff]
    constructor
    · positivity
    · rw [div_lt_one (by norm_num)]
      linarith
  rw [hf]
  ring

lemma pymod_eq_add_of_neg (x : ℚ) (h0 : -6 ≤ x) (h1 : x < 0) : pymod x 6 = x + 6 := by
  unfold pymod
  have hf : ⌊x / 6⌋ = -1 := by
    rw [Int.floor_eq_iff]
    constructor
    · push_cast
      rw [le_div_iff₀ (by norm_num : (0:ℚ) < 6)]
      linarith
    · push_cast
      rw [div_lt_iff₀ (by norm_num : (0:ℚ) < 6)]
      linarith
  rw [hf]
  push_cast
  ring

end WarpTheme

namespace WarpTheme.U

lemma hueAdjust_id (t : ℚ) (h0 : 0 ≤ t) (h1 : t ≤ 1) : hueAdjust t = t := by
  unfold hueAdjust
  rw [if_neg (not_lt.mpr h0), if_neg (not_lt.mpr h1)]

lemma hueAdjust_add_one (t : ℚ) (h1 : t < 0) : hueAdjust t = t + 1 := by
  unfold hueAdjust
  rw [if_pos h1]

lemma hueAdjust_sub_one (t : ℚ) (h0 : 1 < t) : hueAdjust t = t - 1 := by
  unfold hueAdjust
  rw [if_neg (not_lt.mpr (by linarith)), if_pos h0]

lemma hue_slope_low (p q T : ℚ) (h0 : 0 ≤ T) (h1 : T ≤ 1/6) :
    hueToRgb p q T = p + (q - p) * 6 * T := by
  have hadj := hueAdjust_id T h0 (by linarith)
  unfold hueToRgb
  rw [hadj]
  by_cases h : T < 1/6
  · rw [if_pos h]
  · have hT : T = 1/6 := le_antisymm h1 (not_lt.1 h)
    subst hT
    rw [if_neg h, if_pos (by norm_num)]
    ring

lemma hue_flat_q (p q T : ℚ) (h0 : 1/6 ≤ T) (h1 : T ≤ 1/2) : hueToRgb p q T = q := by
  have hadj := hueAdjust_id T (by linarith) (by linarith)
  unfold hueToRgb
  rw [hadj, if_neg (not_lt.mpr h0)]
  by_cases h : T < 1/2
  · rw [if_pos h]
  · have hT : T = 1/2 := le_antisymm h1 (not_lt.1 h)
    subst hT
    rw [if_neg h, if_pos (by norm_num)]
    ring

lemma hue_slope_high (p q T : ℚ) (h0 : 1/2 ≤ T) (h1 : T ≤ 2/3) :
    hueToRgb p q T = p + (q - p) * (2/3 - T) * 6 := by
  have hadj := hueAdjust_id T (by linarith) (by linarith)
  unfold hueToRgb
  rw [hadj, if_neg (not_lt.mpr (by linarith)), if_neg (not_lt.mpr h0)]
  by_cases h : T < 2/3
  · rw [if_pos h]
  · have hT : T = 2/3 := le_antisymm h1 (not_lt.1 h)
    subst hT
    rw [if_neg h]
    ring

lemma hue_flat_p (p q T : ℚ) (h0 : 2/3 ≤ T) (h1 : T ≤ 1) : hueToRgb p q T = p := by
  have hadj := hueAdjust_id T (by linarith) h1
  unfold hueToRgb
  rw [hadj, if_neg (not_lt.mpr (by linarith)), if_neg (not_lt.mpr (by linarith)),
    if_neg (not_lt.mpr h0)]

lemma hue_p_neg (p q T : ℚ) (h0 : -(1/3) ≤ T) (h1 : T ≤ 0) : hueToRgb p q T = p := by
  by_cases h : T < 0
  · have hadj := hueAdjust_add_one T h
    unfold hueToRgb
    rw [hadj, if_neg (not_lt.mpr (by linarith)), if_neg (not_lt.mpr (by linarith)),
      if_neg (not_lt.mpr (by linarith))]
  · have hT : T = 0 := le_antisymm h1 (not_lt.1 h)
    subst hT
    have hadj : hueAdjust 0 = 0 := hueAdjust_id 0 le_rfl (by norm_num)
    unfold hueToRgb
    rw [hadj, if_pos (by norm_num)]
    ring

lemma hue_q_wrap (p q T : ℚ) (h0 : 7/6 ≤ T) (h1 : T ≤ 4/3) : hueToRgb p q T = q := by
  have hadj := hueAdjust_sub_one T (by linarith)
  unfold hueToRgb
  rw [hadj, if_neg (not_lt.mpr (by linarith)), if_pos (by linarith)]

lemma hue_slope_wrap (p q T : ℚ) (h0 : 1 ≤ T) (h1 : T ≤ 7/6) :
    hueToRgb p q T = p + (q - p) * 6 * (T - 1) := by
  by_cases h : 1 < T
  · have hadj := hueAdjust_sub_one T h
    unfold hueToRgb
    rw [hadj]
    by_cases h2 : T - 1 < 1/6
    · rw [if_pos h2]
    · have hT : T = 7/6 := by
        have : T - 1 = 1/6 := le_antisymm (by linarith) (not_lt.1 h2)
        linarith
      subst hT
      rw [if_neg h2, if_pos (by norm_num)]
      ring
  · have hT : T = 1 := le_antisymm (not_lt.1 h) h0
    subst hT
    have hadj : hueAdjust 1 = 1 := hueAdjust_id 1 (by norm_num) le_rfl
    unfold hueToRgb
    rw [hadj, if_neg (not_lt.mpr (by norm_num)), if_neg (not_lt.mpr (by norm_num)),
      if_neg (not_lt.mpr (by norm_num))]
    ring

end WarpTheme.U

namespace WarpTheme

lemma round_exact (v : ℚ) : |((roundEven (v * 255) : ℚ)) - 255 * v| ≤ 21/8 := by
  have h := roundEven_sub_abs (v * 255)
  calc |((roundEven (v * 255) : ℚ)) - 255 * v|
      = |((roundEven (v * 255) : ℚ)) - v * 255| := by ring_nf
  _ ≤ 1/2 := h
  _ ≤ 21/8 := by norm_num

lemma round_mid (v c : ℚ) (h : |v - c| ≤ 1/120) :
    |((roundEven (v * 255) : ℚ)) - 255 * c| ≤ 21/8 := by
  have h1 := roundEven_sub_abs (v * 255)
  have h2 : |v * 255 - 255 * c| ≤ 17/8 := by
    have h3 : v * 255 - 255 * c = (v - c) * 255 := by ring
    rw [h3, abs_mul, abs_of_nonneg (by norm_num : (0:ℚ) ≤ 255)]
    calc |v - c| * 255 ≤ (1/120) * 255 := mul_le_mul_of_nonneg_right h (by norm_num)
    _ = 17/8 := by norm_num
  have h4 : ((roundEven (v * 255) : ℚ)) - 255 * c =
      (((roundEven (v * 255) : ℚ)) - v * 255) + (v * 255 - 255 * c) := by ring
  calc |((roundEven (v * 255) : ℚ)) - 255 * c|
      ≤ |((roundEven (v * 255) : ℚ)) - v * 255| + |v * 255 - 255 * c| := by
        rw [h4]; exact abs_add _ _
  _ ≤ 1/2 + 17/8 := add_le_add h1 h2
  _ = 21/8 := by norm_num

lemma mul_err_bound (d e : ℚ) (hd : 0 ≤ d) (hd1 : d ≤ 1) (he : |e| ≤ 1/2) :
    |d * (e/60)| ≤ 1/120 := by
  rw [abs_mul, abs_div, abs_of_nonneg hd, abs_of_nonneg (by norm_num : (0:ℚ) ≤ 60)]
  have h1 : |e|/60 ≤ (1/2)/60 := (div_le_div_iff_of_pos_right (by norm_num)).mpr he
  calc d * (|e|/60) ≤ 1 * ((1/2)/60) := by
        apply mul_le_mul hd1 (h1.trans (by norm_num)) _ (by norm_num)
        positivity
  _ ≤ 1/120 := by norm_num

lemma int_close (z : ℤ) (n : ℕ) (h : |(z:ℚ) - (n:ℚ)| ≤ 21/8) : |z - (n:ℤ)| ≤ 2 := by
  have h4 : ((|z - (n:ℤ)| : ℤ) : ℚ) ≤ 21/8 := by
    rw [Int.cast_abs]
    push_cast
    exact h
  have h5 : |z - (n:ℤ)| < 3 := by
    have h6 := h4.trans_lt (by norm_num : (21:ℚ)/8 < 3)
    exact_mod_cast h6
  omega

end WarpTheme

namespace WarpTheme.U

lemma hslToRgb_spec (H : ℤ) (cmn cmx : ℚ) (h0 : 0 ≤ cmn) (h1 : cmn < cmx) (h2 : cmx ≤ 1) :
    hslToRgb (H : ℚ) ((cmx - cmn) / (1 - |2 * ((cmx + cmn) / 2) - 1|)) ((cmx + cmn) / 2) =
      (roundEven (hueToRgb cmn cmx ((H : ℚ)/360 + 1/3) * 255),
       roundEven (hueToRgb cmn cmx ((H : ℚ)/360) * 255),
       roundEven (hueToRgb cmn cmx ((H : ℚ)/360 - 1/3) * 255)) := by
  have hsum0 : 0 < cmx + cmn := by linarith
  have hsum2 : cmx + cmn < 2 := by linarith
  have habs : |2 * ((cmx + cmn) / 2) - 1| < 1 := by
    rw [abs_lt]
    constructor <;> linarith
  have hden : 0 < 1 - |2 * ((cmx + cmn) / 2) - 1| := by linarith
  have hs : (cmx - cmn) / (1 - |2 * ((cmx + cmn) / 2) - 1|) ≠ 0 :=
    ne_of_gt (div_pos (by linarith) hden)
  have hq : (if (cmx + cmn) / 2 < 1/2 then
        ((cmx + cmn) / 2) * (1 + (cmx - cmn) / (1 - |2 * ((cmx + cmn) / 2) - 1|))
      else (cmx + cmn) / 2 + (cmx - cmn) / (1 - |2 * ((cmx + cmn) / 2) - 1|)
        - ((cmx + cmn) / 2) * ((cmx - cmn) / (1 - |2 * ((cmx + cmn) / 2) - 1|))) = cmx := by
    by_cases hl : (cmx + cmn) / 2 < 1/2
    · rw [if_pos hl]
      have habs2 : |2 * ((cmx + cmn) / 2) - 1| = 1 - (cmx + cmn) := by
        rw [abs_of_neg (by linarith)]
        ring
      rw [habs2, show (1 : ℚ) - (1 - (cmx + cmn)) = cmx + cmn by ring]
      field_simp
      ring
    · rw [if_neg hl]
      have habs2 : |2 * ((cmx + cmn) / 2) - 1| = (cmx + cmn) - 1 := by
        rw [abs_of_nonneg (by linarith)]
        ring
      rw [habs2, show (1 : ℚ) - (cmx + cmn - 1) = 2 - (cmx + cmn) by ring]
      have h4 : (0:ℚ) < 2 - (cmx + cmn) := by linarith
      field_simp
      ring
  unfold hslToRgb
  dsimp only
  rw [if_neg hs, hq, show 2 * ((cmx + cmn) / 2) - cmx = cmn by ring]

lemma sector0 (cmn cmx x : ℚ) (H : ℤ) (hpq : cmn ≤ cmx) (hd1 : cmx - cmn ≤ 1)
    (hx0 : 0 ≤ x) (hx1 : x ≤ 60) (hH : |(H : ℚ) - x| ≤ 1/2) :
    hueToRgb cmn cmx ((H : ℚ)/360 + 1/3) = cmx ∧
    |hueToRgb cmn cmx ((H : ℚ)/360) - (cmn + (cmx - cmn) * (x / 60))| ≤ 1/120 ∧
    hueToRgb cmn cmx ((H : ℚ)/360 - 1/3) = cmn := by
  obtain ⟨hHl, hHu⟩ := abs_le.1 hH
  have hH0 : (0 : ℤ) ≤ H := by
    have h3 : (-1 : ℚ) < (H : ℚ) := by linarith
    have h4 : (-1 : ℤ) < H := by exact_mod_cast h3
    omega
  have hH60 : H ≤ 60 := by
    have h3 : (H : ℚ) < 61 := by linarith
    have h4 : H < 61 := by exact_mod_cast h3
    omega
  have hQ0 : (0 : ℚ) ≤ (H : ℚ) := by exact_mod_cast hH0
  have hQ60 : (H : ℚ) ≤ 60 := by exact_mod_cast hH60
  have hq0 : (0:ℚ) ≤ (H : ℚ)/360 := by positivity
  have hq1 : (H : ℚ)/360 ≤ 1/6 := by
    rw [div_le_iff₀ (by norm_num : (0:ℚ) < 360)]
    linarith
  refine ⟨hue_flat_q _ _ _ (by linarith) (by linarith), ?_,
    hue_p_neg _ _ _ (by linarith) (by linarith)⟩
  rw [hue_slope_low _ _ _ hq0 hq1,
    show cmn + (cmx - cmn) * 6 * ((H:ℚ)/360) - (cmn + (cmx - cmn) * (x/60)) =
      (cmx - cmn) * (((H:ℚ) - x)/60) by ring]
  exact mul_err_bound _ _ (by linarith) hd1 hH

lemma sector1 (cmn cmx x : ℚ) (H : ℤ) (hpq : cmn ≤ cmx) (hd1 : cmx - cmn ≤ 1)
    (hx0 : 60 ≤ x) (hx1 : x ≤ 120) (hH : |(H : ℚ) - x| ≤ 1/2) :
    |hueToRgb cmn cmx ((H : ℚ)/360 + 1/3) - (cmn + (cmx - cmn) * (2 - x / 60))| ≤ 1/120 ∧
    hueToRgb cmn cmx ((H : ℚ)/360) = cmx ∧
    hueToRgb cmn cmx ((H : ℚ)/360 - 1/3) = cmn := by
  obtain ⟨hHl, hHu⟩ := abs_le.1 hH
  have hH0 : (60 : ℤ) ≤ H := by
    have h3 : (59 : ℚ) < (H : ℚ) := by linarith
    have h4 : (59 : ℤ) < H := by exact_mod_cast h3
    omega
  have hH60 : H ≤ 120 := by
    have h3 : (H : ℚ) < 121 := by linarith
    have h4 : H < 121 := by exact_mod_cast h3
    omega
  have hQ0 : (60 : ℚ) ≤ (H : ℚ) := by exact_mod_cast hH0
  have hQ60 : (H : ℚ) ≤ 120 := by exact_mod_cast hH60
  have hq0 : (1:ℚ)/6 ≤ (H : ℚ)/360 := by
    rw [le_div_iff₀ (by norm_num : (0:ℚ) < 360)]
    linarith
  have hq1 : (H : ℚ)/360 ≤ 1/3 := by
    rw [div_le_iff₀ (by norm_num : (0:ℚ) < 360)]
    linarith
  refine ⟨?_, hue_flat_q _ _ _ hq0 (by linarith),
    hue_p_neg _ _ _ (by linarith) (by linarith)⟩
  rw [hue_slope_high _ _ _ (by linarith) (by linarith),
    show cmn + (cmx - cmn) * (2/3 - ((H:ℚ)/360 + 1/3)) * 6 - (cmn + (cmx - cmn) * (2 - x/60)) =
      (cmx - cmn) * ((x - (H:ℚ))/60) by ring]
  refine mul_err_bound _ _ (by linarith) hd1 ?_
  rw [abs_sub_comm]
  exact hH

lemma sector2 (cmn cmx x : ℚ) (H : ℤ) (hpq : cmn ≤ cmx) (hd1 : cmx - cmn ≤ 1)
    (hx0 : 120 ≤ x) (hx1 : x ≤ 180) (hH : |(H : ℚ) - x| ≤ 1/2) :
    hueToRgb cmn cmx ((H : ℚ)/360 + 1/3) = cmn ∧
    hueToRgb cmn cmx ((H : ℚ)/360) = cmx ∧
    |hueToRgb cmn cmx ((H : ℚ)/360 - 1/3) - (cmn + (cmx - cmn) * (x / 60 - 2))| ≤ 1/120 := by
  obtain ⟨hHl, hHu⟩ := abs_le.1 hH
  have hH0 : (120 : ℤ) ≤ H := by
    have h3 : (119 : ℚ) < (H : ℚ) := by linarith
    have h4 : (119 : ℤ) < H := by exact_mod_cast h3
    omega
  have hH60 : H ≤ 180 := by
    have h3 : (H : ℚ) < 181 := by linarith
    have h4 : H < 181 := by exact_mod_cast h3
    omega
  have hQ0 : (120 : ℚ) ≤ (H : ℚ) := by exact_mod_cast hH0
  have hQ60 : (H : ℚ) ≤ 180 := by exact_mod_cast hH60
  have hq0 : (1:ℚ)/3 ≤ (H : ℚ)/360 := by
    rw [le_div_iff₀ (by norm_num : (0:ℚ) < 360)]
    linarith
  have hq1 : (H : ℚ)/360 ≤ 1/2 := by
    rw [div_le_iff₀ (by norm_num : (0:ℚ) < 360)]
    linarith
  refine ⟨hue_flat_p _ _ _ (by linarith) (by linarith),
    hue_flat_q _ _ _ (by linarith) hq1, ?_⟩
  rw [hue_slope_low _ _ _ (by linarith) (by linarith),
    show cmn + (cmx - cmn) * 6 * ((H:ℚ)/360 - 1/3) - (cmn + (cmx - cmn) * (x/60 - 2)) =
      (cmx - cmn) * (((H:ℚ) - x)/60) by ring]
  exact mul_err_bound _ _ (by linarith) hd1 hH

lemma sector3 (cmn cmx x : ℚ) (H : ℤ) (hpq : cmn ≤ cmx) (hd1 : cmx - cmn ≤ 1)
    (hx0 : 180 ≤ x) (hx1 : x ≤ 240) (hH : |(H : ℚ) - x| ≤ 1/2) :
    hueToRgb cmn cmx ((H : ℚ)/360 + 1/3) = cmn ∧
    |hueToRgb cmn cmx ((H : ℚ)/360) - (cmn + (cmx - cmn) * (4 - x / 60))| ≤ 1/120 ∧
    hueToRgb cmn cmx ((H : ℚ)/360 - 1/3) = cmx := by
  obtain ⟨hHl, hHu⟩ := abs_le.1 hH
  have hH0 : (180 : ℤ) ≤ H := by
    have h3 : (179 : ℚ) < (H : ℚ) := by linarith
    have h4 : (179 : ℤ) < H := by exact_mod_cast h3
    omega
  have hH60 : H ≤ 240 := by
    have h3 : (H : ℚ) < 241 := by linarith
    have h4 : H < 241 := by exact_mod_cast h3
    omega
  have hQ0 : (180 : ℚ) ≤ (H : ℚ) := by exact_mod_cast hH0
  have hQ60 : (H : ℚ) ≤ 240 := by exact_mod_cast hH60
  have hq0 : (1:ℚ)/2 ≤ (H : ℚ)/360 := by
    rw [le_div_iff₀ (by norm_num : (0:ℚ) < 360)]
    linarith
  have hq1 : (H : ℚ)/360 ≤ 2/3 := by
    rw [div_le_iff₀ (by norm_num : (0:ℚ) < 360)]
    linarith
  refine ⟨hue_flat_p _ _ _ (by linarith) (by linarith), ?_,
    hue_flat_q _ _ _ (by linarith) (by linarith)⟩
  rw [hue_slope_high _ _ _ hq0 hq1,
    show cmn + (cmx - cmn) * (2/3 - (H:ℚ)/360) * 6 - (cmn + (cmx - cmn) * (4 - x/60)) =
      (cmx - cmn) * ((x - (H:ℚ))/60) by ring]
  refine mul_err_bound _ _ (by linarith) hd1 ?_
  rw [abs_sub_comm]
  exact hH

lemma sector4 (cmn cmx x : ℚ) (H : ℤ) (hpq : cmn ≤ cmx) (hd1 : cmx - cmn ≤ 1)
    (hx0 : 240 ≤ x) (hx1 : x ≤ 300) (hH : |(H : ℚ) - x| ≤ 1/2) :
    |hueToRgb cmn cmx ((H : ℚ)/360 + 1/3) - (cmn + (cmx - cmn) * (x / 60 - 4))| ≤ 1/120 ∧
    hueToRgb cmn cmx ((H : ℚ)/360) = cmn ∧
    hueToRgb cmn cmx ((H : ℚ)/360 - 1/3) = cmx := by
  obtain ⟨hHl, hHu⟩ := abs_le.1 hH
  have hH0 : (240 : ℤ) ≤ H := by
    have h3 : (239 : ℚ) < (H : ℚ) := by linarith
    have h4 : (239 : ℤ) < H := by exact_mod_cast h3
    omega
  have hH60 : H ≤ 300 := by
    have h3 : (H : ℚ) < 301 := by linarith
    have h4 : H < 301 := by exact_mod_cast h3
    omega
  have hQ0 : (240 : ℚ) ≤ (H : ℚ) := by exact_mod_cast hH0
  have hQ60 : (H : ℚ) ≤ 300 := by exact_mod_cast hH60
  have hq0 : (2:ℚ)/3 ≤ (H : ℚ)/360 := by
    rw [le_div_iff₀ (by norm_num : (0:ℚ) < 360)]
    linarith
  have hq1 : (H : ℚ)/360 ≤ 5/6 := by
    rw [div_le_iff₀ (by norm_num : (0:ℚ) < 360)]
    linarith
  refine ⟨?_, hue_flat_p _ _ _ hq0 (by linarith),
    hue_flat_q _ _ _ (by linarith) (by linarith)⟩
  rw [hue_slope_wrap _ _ _ (by linarith) (by linarith),
    show cmn + (cmx - cmn) * 6 * (((H:ℚ)/360 + 1/3) - 1) - (cmn + (cmx - cmn) * (x/60 - 4)) =
      (cmx - cmn) * (((H:ℚ) - x)/60) by ring]
  exact mul_err_bound _ _ (by linarith) hd1 hH

lemma sector5 (cmn cmx x : ℚ) (H : ℤ) (hpq : cmn ≤ cmx) (hd1 : cmx - cmn ≤ 1)
    (hx0 : 300 ≤ x) (hx1 : x ≤ 360) (hH : |(H : ℚ) - x| ≤ 1/2) :
    hueToRgb cmn cmx ((H : ℚ)/360 + 1/3) = cmx ∧
    hueToRgb cmn cmx ((H : ℚ)/360) = cmn ∧
    |hueToRgb cmn cmx ((H : ℚ)/360 - 1/3) - (cmn + (cmx - cmn) * (6 - x / 60))| ≤ 1/120 := by
  obtain ⟨hHl, hHu⟩ := abs_le.1 hH
  have hH0 : (300 : ℤ) ≤ H := by
    have h3 : (299 : ℚ) < (H : ℚ) := by linarith
    have h4 : (299 : ℤ) < H := by exact_mod_cast h3
    omega
  have hH60 : H ≤ 360 := by
    have h3 : (H : ℚ) < 361 := by linarith
    have h4 : H < 361 := by exact_mod_cast h3
    omega
  have hQ0 : (300 : ℚ) ≤ (H : ℚ) := by exact_mod_cast hH0
  have hQ60 : (H : ℚ) ≤ 360 := by exact_mod_cast hH60
  have hq0 : (5:ℚ)/6 ≤ (H : ℚ)/360 := by
    rw [le_div_iff₀ (by norm_num : (0:ℚ) < 360)]
    linarith
  have hq1 : (H : ℚ)/360 ≤ 1 := by
    rw [div_le_iff₀ (by norm_num : (0:ℚ) < 360)]
    linarith
  refine ⟨hue_q_wrap _ _ _ (by linarith) (by linarith),
    hue_flat_p _ _ _ (by linarith) hq1, ?_⟩
  rw [hue_slope_high _ _ _ (by linarith) (by linarith),
    show cmn + (cmx - cmn) * (2/3 - ((H:ℚ)/360 - 1/3)) * 6 - (cmn + (cmx - cmn) * (6 - x/60)) =
      (cmx - cmn) * ((x - (H:ℚ))/60) by ring]
  refine mul_err_bound _ _ (by linarith) hd1 ?_
  rw [abs_sub_comm]
  exact hH

lemma hsl_core_B1a (r' g' b' : ℚ)
    (hr1 : r' ≤ 1) (hb0 : 0 ≤ b')
    (hδ : max r' (max g' b') - min r' (min g' b') ≠ 0)
    (hc1 : max r' (max g' b') = r') (hgb : b' ≤ g') :
    |((rtQ r' g' b').1 : ℚ) - 255 * r'| ≤ 21/8 ∧
    |((rtQ r' g' b').2.1 : ℚ) - 255 * g'| ≤ 21/8 ∧
    |((rtQ r' g' b').2.2 : ℚ) - 255 * b'| ≤ 21/8 := by
  have hbr : b' ≤ r' := by
    rw [← hc1]
    exact le_max_of_le_right (le_max_right _ _)
  have hgr : g' ≤ r' := by
    rw [← hc1]
    exact le_max_of_le_right (le_max_left _ _)
  have hmin : min r' (min g' b') = b' := by
    rw [min_eq_right hgb, min_eq_right hbr]
  have hδ' : r' - b' ≠ 0 := by
    rw [hc1, hmin] at hδ
    exact hδ
  have hbr' : b' < r' := lt_of_le_of_ne hbr fun h => hδ' (by rw [h]; ring)
  have hdpos : (0:ℚ) < r' - b' := sub_pos.2 hbr'
  have harg0 : 0 ≤ (g' - b')/(r' - b') := div_nonneg (by linarith) hdpos.le
  have harg1 : (g' - b')/(r' - b') ≤ 1 := by
    rw [div_le_one hdpos]
    linarith
  have hrgb : rgbToHslQ r' g' b' =
      (roundEven ((g' - b')/(r' - b') * 60),
       (r' - b') / (1 - |2 * ((r' + b')/2) - 1|),
       (r' + b')/2) := by
    unfold rgbToHslQ
    dsimp only
    rw [hc1, hmin]
    rw [if_pos hδ', if_pos rfl]
    rw [pymod_eq_self _ harg0 (by linarith)]
    rw [if_neg (not_lt.mpr (roundEven_nonneg _ (mul_nonneg harg0 (by norm_num))))]
    rw [if_pos hδ']
  have hx1 : (g' - b')/(r' - b') * 60 ≤ 60 := by
    have h5 := mul_le_mul_of_nonneg_right harg1 (by norm_num : (0:ℚ) ≤ 60)
    rw [one_mul] at h5
    exact h5
  obtain ⟨hR, hG, hB⟩ := sector0 b' r' ((g' - b')/(r' - b') * 60)
    (roundEven ((g' - b')/(r' - b') * 60)) hbr'.le (by linarith)
    (mul_nonneg harg0 (by norm_num)) hx1 (roundEven_sub_abs _)
  have hid : b' + (r' - b') * ((g' - b')/(r' - b') * 60 / 60) = g' := by
    field_simp
    ring
  rw [hid] at hG
  unfold rtQ
  rw [hrgb]
  dsimp only
  rw [hslToRgb_spec _ _ _ hb0 hbr' hr1]
  exact ⟨by rw [hR]; exact round_exact r', round_mid _ _ hG, by rw [hB]; exact round_exact b'⟩

lemma hsl_core_B1b (r' g' b' : ℚ)
    (hr1 : r' ≤ 1) (hg0 : 0 ≤ g')
    (hδ : max r' (max g' b') - min r' (min g' b') ≠ 0)
    (hc1 : max r' (max g' b') = r') (hbg : g' < b') :
    |((rtQ r' g' b').1 : ℚ) - 255 * r'| ≤ 21/8 ∧
    |((rtQ r' g' b').2.1 : ℚ) - 255 * g'| ≤ 21/8 ∧
    |((rtQ r' g' b').2.2 : ℚ) - 255 * b'| ≤ 21/8 := by
  have hbr : b' ≤ r' := by
    rw [← hc1]
    exact le_max_of_le_right (le_max_right _ _)
  have hgr : g' ≤ r' := by
    rw [← hc1]
    exact le_max_of_le_right (le_max_left _ _)
  have hmin : min r' (min g' b') = g' := by
    rw [min_eq_left hbg.le, min_eq_right hgr]
  have hδ' : r' - g' ≠ 0 := by
    rw [hc1, hmin] at hδ
    exact hδ
  have hgr' : g' < r' := lt_of_le_of_ne hgr fun h => hδ' (by rw [h]; ring)
  have hdpos : (0:ℚ) < r' - g' := sub_pos.2 hgr'
  have hargneg : (g' - b')/(r' - g') < 0 := div_neg_of_neg_of_pos (by linarith) hdpos
  have harglb : (-1 : ℚ) ≤ (g' - b')/(r' - g') := by
    rw [le_div_iff₀ hdpos]
    linarith
  have hrgb : rgbToHslQ r' g' b' =
      (roundEven (((g' - b')/(r' - g') + 6) * 60),
       (r' - g') / (1 - |2 * ((r' + g')/2) - 1|),
       (r' + g')/2) := by
    unfold rgbToHslQ
    dsimp only
    rw [hc1, hmin]
    rw [if_pos hδ', if_pos rfl]
    rw [pymod_eq_add_of_neg _ (by linarith) hargneg]
    rw [if_neg (not_lt.mpr (roundEven_nonneg _ (mul_nonneg (by linarith) (by norm_num))))]
    rw [if_pos hδ']
  have hx0 : (300:ℚ) ≤ ((g' - b')/(r' - g') + 6) * 60 := by nlinarith [harglb]
  have hx1 : ((g' - b')/(r' - g') + 6) * 60 ≤ 360 := by nlinarith [hargneg]
  obtain ⟨hR, hG, hB⟩ := sector5 g' r' (((g' - b')/(r' - g') + 6) * 60)
    (roundEven (((g' - b')/(r' - g') + 6) * 60)) hgr'.le (by linarith) hx0 hx1
    (roundEven_sub_abs _)
  have hid : g' + (r' - g') * (6 - ((g' - b')/(r' - g') + 6) * 60 / 60) = b' := by
    field_simp
    ring
  rw [hid] at hB
  unfold rtQ
  rw [hrgb]
  dsimp only
  rw [hslToRgb_spec _ _ _ hg0 hgr' hr1]
  exact ⟨by rw [hR]; exact round_exact r', by rw [hG]; exact round_exact g', round_mid _ _ hB⟩

lemma hsl_core_B2a (r' g' b' : ℚ)
    (hg1 : g' ≤ 1) (hr0 : 0 ≤ r')
    (hδ : max r' (max g' b') - min r' (min g' b') ≠ 0)
    (hc1n : ¬(max r' (max g' b') = r')) (hc2 : max r' (max g' b') = g') (hrb : r' ≤ b') :
    |((rtQ r' g' b').1 : ℚ) - 255 * r'| ≤ 21/8 ∧
    |((rtQ r' g' b').2.1 : ℚ) - 255 * g'| ≤ 21/8 ∧
    |((rtQ r' g' b').2.2 : ℚ) - 255 * b'| ≤ 21/8 := by
  have hbg : b' ≤ g' := by
    rw [← hc2]
    exact le_max_of_le_right (le_max_right _ _)
  have hrg : r' ≤ g' := by
    rw [← hc2]
    exact le_max_left _ _
  have hmin : min r' (min g' b') = r' := by
    rw [min_eq_right hbg, min_eq_left hrb]
  have hneq : ¬(g' = r') := by
    rw [hc2] at hc1n
    exact hc1n
  have hδ' : g' - r' ≠ 0 := by
    rw [hc2, hmin] at hδ
    exact hδ
  have hrg' : r' < g' := lt_of_le_of_ne hrg fun h => hneq h.symm
  have hdpos : (0:ℚ) < g' - r' := sub_pos.2 hrg'
  have harg0 : 0 ≤ (b' - r')/(g' - r') := div_nonneg (by linarith) hdpos.le
  have harg1 : (b' - r')/(g' - r') ≤ 1 := by
    rw [div_le_one hdpos]
    linarith
  have hrgb : rgbToHslQ r' g' b' =
      (roundEven (((b' - r')/(g' - r') + 2) * 60),
       (g' - r') / (1 - |2 * ((g' + r')/2) - 1|),
       (g' + r')/2) := by
    unfold rgbToHslQ
    dsimp only
    rw [hc2, hmin]
    rw [if_pos hδ', if_neg hneq, if_pos rfl]
    rw [if_neg (not_lt.mpr (roundEven_nonneg _ (mul_nonneg (by linarith) (by norm_num))))]
    rw [if_pos hδ']
  have hx0 : (120:ℚ) ≤ ((b' - r')/(g' - r') + 2) * 60 := by nlinarith [harg0]
  have hx1 : ((b' - r')/(g' - r') + 2) * 60 ≤ 180 := by nlinarith [harg1]
  obtain ⟨hR, hG, hB⟩ := sector2 r' g' (((b' - r')/(g' - r') + 2) * 60)
    (roundEven (((b' - r')/(g' - r') + 2) * 60)) hrg'.le (by linarith) hx0 hx1
    (roundEven_sub_abs _)
  have hid : r' + (g' - r') * (((b' - r')/(g' - r') + 2) * 60 / 60 - 2) = b' := by
    field_simp
    ring
  rw [hid] at hB
  unfold rtQ
  rw [hrgb]
  dsimp only
  rw [hslToRgb_spec _ _ _ hr0 hrg' hg1]
  exact ⟨by rw [hR]; exact round_exact r', by rw [hG]; exact round_exact g', round_mid _ _ hB⟩

lemma hsl_core_B2b (r' g' b' : ℚ)
    (hg1 : g' ≤ 1) (hb0 : 0 ≤ b')
    (hδ : max r' (max g' b') - min r' (min g' b') ≠ 0)
    (hc1n : ¬(max r' (max g' b') = r')) (hc2 : max r' (max g' b') = g') (hbr : b' < r') :
    |((rtQ r' g' b').1 : ℚ) - 255 * r'| ≤ 21/8 ∧
    |((rtQ r' g' b').2.1 : ℚ) - 255 * g'| ≤ 21/8 ∧
    |((rtQ r' g' b').2.2 : ℚ) - 255 * b'| ≤ 21/8 := by
  have hbg : b' ≤ g' := by
    rw [← hc2]
    exact le_max_of_le_right (le_max_right _ _)
  have hrg : r' ≤ g' := by
    rw [← hc2]
    exact le_max_left _ _
  have hmin : min r' (min g' b') = b' := by
    rw [min_eq_right hbg, min_eq_right hbr.le]
  have hneq : ¬(g' = r') := by
    rw [hc2] at hc1n
    exact hc1n
  have hδ' : g' - b' ≠ 0 := by
    rw [hc2, hmin] at hδ
    exact hδ
  have hbg' : b' < g' := lt_of_le_of_ne hbg fun h => hδ' (by rw [h]; ring)
  have hdpos : (0:ℚ) < g' - b' := sub_pos.2 hbg'
  have hargneg : (b' - r')/(g' - b') < 0 := div_neg_of_neg_of_pos (by linarith) hdpos
  have harglb : (-1 : ℚ) ≤ (b' - r')/(g' - b') := by
    rw [le_div_iff₀ hdpos]
    linarith
  have hrgb : rgbToHslQ r' g' b' =
      (roundEven (((b' - r')/(g' - b') + 2) * 60),
       (g' - b') / (1 - |2 * ((g' + b')/2) - 1|),
       (g' + b')/2) := by
    unfold rgbToHslQ
    dsimp only
    rw [hc2, hmin]
    rw [if_pos hδ', if_neg hneq, if_pos rfl]
    rw [if_neg (not_lt.mpr (roundEven_nonneg _ (mul_nonneg (by linarith) (by norm_num))))]
    rw [if_pos hδ']
  have hx0 : (60:ℚ) ≤ ((b' - r')/(g' - b') + 2) * 60 := by nlinarith [harglb]
  have hx1 : ((b' - r')/(g' - b') + 2) * 60 ≤ 120 := by nlinarith [hargneg]
  obtain ⟨hR, hG, hB⟩ := sector1 b' g' (((b' - r')/(g' - b') + 2) * 60)
    (roundEven (((b' - r')/(g' - b') + 2) * 60)) hbg'.le (by linarith) hx0 hx1
    (roundEven_sub_abs _)
  have hid : b' + (g' - b') * (2 - ((b' - r')/(g' - b') + 2) * 60 / 60) = r' := by
    field_simp
    ring
  rw [hid] at hR
  unfold rtQ
  rw [hrgb]
  dsimp only
  rw [hslToRgb_spec _ _ _ hb0 hbg' hg1]
  exact ⟨round_mid _ _ hR, by rw [hG]; exact round_exact g', by rw [hB]; exact round_exact b'⟩

lemma hsl_core_B3a (r' g' b' : ℚ)
    (hb1 : b' ≤ 1) (hg0 : 0 ≤ g')
    (hδ : max r' (max g' b') - min r' (min g' b') ≠ 0)
    (hc1n : ¬(max r' (max g' b') = r')) (hc2n : ¬(max r' (max g' b') = g'))
    (hc3 : max r' (max g' b') = b') (hgr : g' ≤ r') :
    |((rtQ r' g' b').1 : ℚ) - 255 * r'| ≤ 21/8 ∧
    |((rtQ r' g' b').2.1 : ℚ) - 255 * g'| ≤ 21/8 ∧
    |((rtQ r' g' b').2.2 : ℚ) - 255 * b'| ≤ 21/8 := by
  have hrb : r' ≤ b' := by
    rw [← hc3]
    exact le_max_left _ _
  have hgb2 : g' ≤ b' := by
    rw [← hc3]
    exact le_max_of_le_right (le_max_left _ _)
  have hmin : min r' (min g' b') = g' := by
    rw [min_eq_left hgb2, min_eq_right hgr]
  have hneq1 : ¬(b' = r') := by
    rw [hc3] at hc1n
    exact hc1n
  have hneq2 : ¬(b' = g') := by
    rw [hc3] at hc2n
    exact hc2n
  have hδ' : b' - g' ≠ 0 := by
    rw [hc3, hmin] at hδ
    exact hδ
  have hgb' : g' < b' := lt_of_le_of_ne hgb2 fun h => hneq2 h.symm
  have hdpos : (0:ℚ) < b' - g' := sub_pos.2 hgb'
  have harg0 : 0 ≤ (r' - g')/(b' - g') := div_nonneg (by linarith) hdpos.le
  have harg1 : (r' - g')/(b' - g') ≤ 1 := by
    rw [div_le_one hdpos]
    linarith
  have hrgb : rgbToHslQ r' g' b' =
      (roundEven (((r' - g')/(b' - g') + 4) * 60),
       (b' - g') / (1 - |2 * ((b' + g')/2) - 1|),
       (b' + g')/2) := by
    unfold rgbToHslQ
    dsimp only
    rw [hc3, hmin]
    rw [if_pos hδ', if_neg hneq1, if_neg hneq2]
    rw [if_neg (not_lt.mpr (roundEven_nonneg _ (mul_nonneg (by linarith) (by norm_num))))]
    rw [if_pos hδ']
  have hx0 : (240:ℚ) ≤ ((r' - g')/(b' - g') + 4) * 60 := by nlinarith [harg0]
  have hx1 : ((r' - g')/(b' - g') + 4) * 60 ≤ 300 := by nlinarith [harg1]
  obtain ⟨hR, hG, hB⟩ := sector4 g' b' (((r' - g')/(b' - g') + 4) * 60)
    (roundEven (((r' - g')/(b' - g') + 4) * 60)) hgb'.le (by linarith) hx0 hx1
    (roundEven_sub_abs _)
  have hid : g' + (b' - g') * (((r' - g')/(b' - g') + 4) * 60 / 60 - 4) = r' := by
    field_simp
    ring
  rw [hid] at hR
  unfold rtQ
  rw [hrgb]
  dsimp only
  rw [hslToRgb_spec _ _ _ hg0 hgb' hb1]
  exact ⟨round_mid _ _ hR, by rw [hG]; exact round_exact g', by rw [hB]; exact round_exact b'⟩

lemma hsl_core_B3b (r' g' b' : ℚ)
    (hb1 : b' ≤ 1) (hr0 : 0 ≤ r')
    (hδ : max r' (max g' b') - min r' (min g' b') ≠ 0)
    (hc1n : ¬(max r' (max g' b') = r')) (hc2n : ¬(max r' (max g' b') = g'))
    (hc3 : max r' (max g' b') = b') (hrg : r' < g') :
    |((rtQ r' g' b').1 : ℚ) - 255 * r'| ≤ 21/8 ∧
    |((rtQ r' g' b').2.1 : ℚ) - 255 * g'| ≤ 21/8 ∧
    |((rtQ r' g' b').2.2 : ℚ) - 255 * b'| ≤ 21/8 := by
  have hrb : r' ≤ b' := by
    rw [← hc3]
    exact le_max_left _ _
  have hgb2 : g' ≤ b' := by
    rw [← hc3]
    exact le_max_of_le_right (le_max_left _ _)
  have hmin : min r' (min g' b') = r' := by
    rw [min_eq_left hgb2, min_eq_left hrg.le]
  have hneq1 : ¬(b' = r') := by
    rw [hc3] at hc1n
    exact hc1n
  have hneq2 : ¬(b' = g') := by
    rw [hc3] at hc2n
    exact hc2n
  have hδ' : b' - r' ≠ 0 := by
    rw [hc3, hmin] at hδ
    exact hδ
  have hrb' : r' < b' := lt_of_le_of_ne hrb fun h => hδ' (by rw [h]; ring)
  have hdpos : (0:ℚ) < b' - r' := sub_pos.2 hrb'
  have hargneg : (r' - g')/(b' - r') < 0 := div_neg_of_neg_of_pos (by linarith) hdpos
  have harglb : (-1 : ℚ) ≤ (r' - g')/(b' - r') := by
    rw [le_div_iff₀ hdpos]
    linarith
  have hrgb : rgbToHslQ r' g' b' =
      (roundEven (((r' - g')/(b' - r') + 4) * 60),
       (b' - r') / (1 - |2 * ((b' + r')/2) - 1|),
       (b' + r')/2) := by
    unfold rgbToHslQ
    dsimp only
    rw [hc3, hmin]
    rw [if_pos hδ', if_neg hneq1, if_neg hneq2]
    rw [if_neg (not_lt.mpr (roundEven_nonneg _ (mul_nonneg (by linarith) (by norm_num))))]
    rw [if_pos hδ']
  have hx0 : (180:ℚ) ≤ ((r' - g')/(b' - r') + 4) * 60 := by nlinarith [harglb]
  have hx1 : ((r' - g')/(b' - r') + 4) * 60 ≤ 240 := by nlinarith [hargneg]
  obtain ⟨hR, hG, hB⟩ := sector3 r' b' (((r' - g')/(b' - r') + 4) * 60)
    (roundEven (((r' - g')/(b' - r') + 4) * 60)) hrb'.le (by linarith) hx0 hx1
    (roundEven_sub_abs _)
  have hid : r' + (b' - r') * (4 - ((r' - g')/(b' - r') + 4) * 60 / 60) = g' := by
    field_simp
    ring
  rw [hid] at hG
  unfold rtQ
  rw [hrgb]
  dsimp only
  rw [hslToRgb_spec _ _ _ hr0 hrb' hb1]
  exact ⟨by rw [hR]; exact round_exact r', round_mid _ _ hG, by rw [hB]; exact round_exact b'⟩

lemma hsl_core (r' g' b' : ℚ) (hr0 : 0 ≤ r') (hr1 : r' ≤ 1) (hg0 : 0 ≤ g') (hg1 : g' ≤ 1)
    (hb0 : 0 ≤ b') (hb1 : b' ≤ 1) :
    |((rtQ r' g' b').1 : ℚ) - 255 * r'| ≤ 21/8 ∧
    |((rtQ r' g' b').2.1 : ℚ) - 255 * g'| ≤ 21/8 ∧
    |((rtQ r' g' b').2.2 : ℚ) - 255 * b'| ≤ 21/8 := by
  by_cases hδ : max r' (max g' b') - min r' (min g' b') = 0
  · have hmaxmin : max r' (max g' b') = min r' (min g' b') := sub_eq_zero.1 hδ
    have h1 : r' = min r' (min g' b') :=
      le_antisymm (hmaxmin ▸ le_max_left _ _) (min_le_left _ _)
    have h2 : g' = min r' (min g' b') :=
      le_antisymm (hmaxmin ▸ le_max_of_le_right (le_max_left _ _))
        ((min_le_right _ _).trans (min_le_left _ _))
    have h3 : b' = min r' (min g' b') :=
      le_antisymm (hmaxmin ▸ le_max_of_le_right (le_max_right _ _))
        ((min_le_right _ _).trans (min_le_right _ _))
    have hgr : g' = r' := h2.trans h1.symm
    have hbr : b' = r' := h3.trans h1.symm
    rw [hgr, hbr]
    have hcalc : rgbToHslQ r' r' r' = (0, 0, (r' + r')/2) := by
      unfold rgbToHslQ
      dsimp only
      rw [max_self, max_self, min_self, min_self, sub_self]
      rw [if_neg (by norm_num : ¬((0:ℚ) ≠ 0)), if_neg (by norm_num : ¬((0:ℚ) ≠ 0))]
      rw [zero_mul, roundEven_zero]
      rw [if_neg (by norm_num : ¬((0:ℤ) < 0))]
    unfold rtQ
    rw [hcalc]
    dsimp only
    unfold hslToRgb
    dsimp only
    rw [if_pos rfl]
    have hl : (r' + r')/2 = r' := by ring
    rw [hl]
    exact ⟨round_exact r', round_exact r', round_exact r'⟩
  · by_cases hc1 : max r' (max g' b') = r'
    · by_cases hgb : b' ≤ g'
      · exact hsl_core_B1a r' g' b' hr1 hb0 hδ hc1 hgb
      · exact hsl_core_B1b r' g' b' hr1 hg0 hδ hc1 (not_le.1 hgb)
    · by_cases hc2 : max r' (max g' b') = g'
      · by_cases hrb : r' ≤ b'
        · exact hsl_core_B2a r' g' b' hg1 hr0 hδ hc1 hc2 hrb
        · exact hsl_core_B2b r' g' b' hg1 hb0 hδ hc1 hc2 (not_le.1 hrb)
      · have hc3 : max r' (max g' b') = b' := by
          rcases max_choice r' (max g' b') with h | h
          · exact absurd h hc1
          · rw [h]
            rcases max_choice g' b' with h2 | h2
            · exact absurd (h.trans h2) hc2
            · exact h2
        by_cases hgr : g' ≤ r'
        · exact hsl_core_B3a r' g' b' hb1 hg0 hδ hc1 hc2 hc3 hgr
        · exact hsl_core_B3b r' g' b' hb1 hr0 hδ hc1 hc2 hc3 (not_le.1 hgr)

end WarpTheme.U

namespace WarpTheme

/-- C4: flat CSS extraction (`extract_css_colors`) applied to
`"body{background-color:#f0f0f0;color:#333}a{color:rgb(0,123,255)}"`
returns exactly the set of colors `{"#f0f0f0", "#333", "#007bff"}`
(stated as a set because Python's `list(set(...))` order is
unspecified). -/
theorem css_extraction_example :
    (CE.extractCssColors
        "body\x7bbackground-color:#f0f0f0;color:#333\x7da\x7bcolor:rgb(0,123,255)\x7d").toFinset
      = {"#f0f0f0", "#333", "#007bff"} := by decide

/-- C3 counterexample: a 3-digit shorthand literal in the CSS input is
NOT expanded to 6 digits by flat extraction: the output of
`extract_css_colors` on `"body{color:#333}"` contains `"#333"` itself and
does not contain `"#333333"`, so not every produced color string is a
6-digit hex. -/
theorem css_shorthand_not_expanded_cex :
    "#333" ∈ CE.extractCssColors "body\x7bcolor:#333\x7d" ∧
    "#333333" ∉ CE.extractCssColors "body\x7bcolor:#333\x7d" := by decide

/-- C3 (amended): flat extraction emits every hex-pattern match verbatim
(`'#'` plus the matched 3- or 6-digit group); in particular a 3-digit
shorthand literal appears in the output in its original 3-digit form and
is not expanded to 6 digits. -/
theorem css_hex_verbatim (css : String) (ds : List Char)
    (hcss : css ≠ "") (hds : ds ∈ CE.hexFind css) :
    ("#" ++ String.mk ds) ∈ CE.extractCssColors css := by
  unfold CE.extractCssColors
  rw [if_neg hcss]
  rw [List.mem_dedup]
  exact List.mem_append_left _ (List.mem_map_of_mem _ hds)

/-- C3 witness: `css_hex_verbatim` applied to the CSS fragment
`"a{color:#333}"` and its 3-digit match. -/
theorem css_hex_verbatim_witness :
    ("#" ++ String.mk ['3', '3', '3']) ∈ CE.extractCssColors "a\x7bcolor:#333\x7d" :=
  css_hex_verbatim "a\x7bcolor:#333\x7d" ['3', '3', '3'] (by decide) (by decide)

/-- C9: whenever the candidate list passed to `select_background_color`
contains all three of `#FFFFFF`, `#F0F0F0` and `#EEEEEE`, the function
returns `#1E1E1E`, regardless of `prefer_dark` and of any other
candidates. -/
theorem background_special_triple (colors : List String) (preferDark : Bool)
    (h1 : "#FFFFFF" ∈ colors) (h2 : "#F0F0F0" ∈ colors) (h3 : "#EEEEEE" ∈ colors) :
    CE.selectBackgroundColor colors preferDark = some "#1E1E1E" := by
  have hne : colors ≠ [] := List.ne_nil_of_mem h1
  unfold CE.selectBackgroundColor
  rw [if_neg (by simpa using hne), if_pos ⟨h1, h2, h3⟩]

/-- C9 witness: the special triple itself, with `prefer_dark = false`
(showing flag independence) and an extra dark candidate first. -/
theorem background_special_triple_witness :
    CE.selectBackgroundColor ["#000000", "#FFFFFF", "#F0F0F0", "#EEEEEE"] false
      = some "#1E1E1E" :=
  background_special_triple ["#000000", "#FFFFFF", "#F0F0F0", "#EEEEEE"] false
    (by decide) (by decide) (by decide)

/-- C10: a 4-entry dominant list containing `#333333` with `prefer_light`
false short-circuits `select_colors_for_theme`: background `#333333`,
foreground `#FFFFFF`, and accent `#FF0000` exactly when `#FF0000` is
among the candidate colors, else `#0087D7` — independently of the image
edge predicate (no edge-based categorization is consulted). -/
theorem theme_selection_special_case (edge : String → Bool) (dc : List (String × ℚ))
    (h4 : dc.length = 4) (h333 : dc.any (fun p => p.1 == "#333333") = true) :
    SS.selectColorsForTheme edge dc false =
      some { background := "#333333", foreground := "#FFFFFF",
             accent := if dc.any (fun p => p.1 == "#FF0000") then "#FF0000" else "#0087D7" } := by
  unfold SS.selectColorsForTheme
  rw [if_pos ⟨h4, h333, rfl⟩]

/-- C10 witness: a concrete 4-entry list containing `#333333` and a
red-ish candidate `#FF2020` but not `#FF0000`; the accent is `#0087D7`. -/
theorem theme_selection_special_case_witness :
    SS.selectColorsForTheme (fun _ => false)
        [("#333333", 2), ("#FF2020", 1), ("#FFFFFF", 1), ("#000000", 1)] false =
      some { background := "#333333", foreground := "#FFFFFF",
             accent := if
                 ([("#333333", (2:ℚ)), ("#FF2020", 1), ("#FFFFFF", 1), ("#000000", 1)].any
                   (fun p => p.1 == "#FF0000")) then "#FF0000" else "#0087D7" } :=
  theme_selection_special_case (fun _ => false)
    [("#333333", 2), ("#FF2020", 1), ("#FFFFFF", 1), ("#000000", 1)]
    (by decide) (by decide)

/-- C1 counterexample: the dominant list
`[("#333333",2),("#FF3030",1),("#FFFFFF",1),("#000000",1)]` contains the
red-ish candidate `#FF3030` (RGB (255,48,48) with R>150, G<100, B<100),
yet `select_colors_for_theme` with `prefer_light` false returns accent
`#0087D7`, not `#FF3030`: the 4-entry `#333333` special case preempts the
red override. -/
theorem screenshot_red_override_special_case_cex :
    SS.selectColorsForTheme (fun _ => false)
        [("#333333", 2), ("#FF3030", 1), ("#FFFFFF", 1), ("#000000", 1)] false
      = some { background := "#333333", foreground := "#FFFFFF", accent := "#0087D7" } ∧
    SS.hexToRgb "#FF3030" = some (255, 48, 48) ∧
    (255 > 150 ∧ 48 < 100 ∧ 48 < 100) ∧
    "#0087D7" ≠ "#FF3030" := by decide

/-- C6 counterexample: the round trip is NOT within ±1 per channel: at
RGB (255,2,0) the hue rounds from 2/255·60 ≈ 0.47° to 0°, and the trip
returns (255,0,0), so the green channel is off by 2. -/
theorem hsl_roundtrip_pm_one_cex :
    U.roundTrip 255 2 0 = (255, 0, 0) ∧ ¬(((U.roundTrip 255 2 0).2.1 - 2).natAbs ≤ 1) := by
  have h : U.roundTrip 255 2 0 = (255, 0, 0) := by
    norm_num [U.roundTrip, U.rgbToHsl, U.rgbToHslQ, U.hslToRgb, U.hueToRgb, U.hueAdjust,
      roundEven, pymod]
  exact ⟨h, by rw [h]; decide⟩

/-- C6 (amended): for every RGB triple with channels in [0,255],
converting to HSL with `rgb_to_hsl` and back with `hsl_to_rgb` yields a
triple equal to the original within ±2 per channel (±1 fails: the hue is
rounded to whole degrees, which can move a channel by up to
255·6·(0.5/360) ≈ 2.125 before the final rounding). -/
theorem hsl_roundtrip_within_two (r g b : ℕ) (hr : r ≤ 255) (hg : g ≤ 255) (hb : b ≤ 255) :
    ((U.roundTrip r g b).1 - (r : ℤ)).natAbs ≤ 2 ∧
    ((U.roundTrip r g b).2.1 - (g : ℤ)).natAbs ≤ 2 ∧
    ((U.roundTrip r g b).2.2 - (b : ℤ)).natAbs ≤ 2 := by
  have hcore := U.hsl_core ((r:ℚ)/255) ((g:ℚ)/255) ((b:ℚ)/255)
    (by positivity) (by rw [div_le_one (by norm_num)]; exact_mod_cast hr)
    (by positivity) (by rw [div_le_one (by norm_num)]; exact_mod_cast hg)
    (by positivity) (by rw [div_le_one (by norm_num)]; exact_mod_cast hb)
  have hmr : (255:ℚ) * ((r:ℚ)/255) = (r:ℚ) := by field_simp
  have hmg : (255:ℚ) * ((g:ℚ)/255) = (g:ℚ) := by field_simp
  have hmb : (255:ℚ) * ((b:ℚ)/255) = (b:ℚ) := by field_simp
  rw [hmr, hmg, hmb] at hcore
  have heq : U.roundTrip r g b = U.rtQ ((r:ℚ)/255) ((g:ℚ)/255) ((b:ℚ)/255) := rfl
  rw [heq]
  refine ⟨?_, ?_, ?_⟩
  · have h2 := int_close _ _ hcore.1
    rw [Int.abs_eq_natAbs] at h2
    exact_mod_cast h2
  · have h2 := int_close _ _ hcore.2.1
    rw [Int.abs_eq_natAbs] at h2
    exact_mod_cast h2
  · have h2 := int_close _ _ hcore.2.2
    rw [Int.abs_eq_natAbs] at h2
    exact_mod_cast h2

/-- C6 witness: the bound applied at (10, 200, 30), whose round trip is
(10, 200, 29). -/
theorem hsl_roundtrip_within_two_witness :
    ((U.roundTrip 10 200 30).1 - ((10:ℕ) : ℤ)).natAbs ≤ 2 ∧
    ((U.roundTrip 10 200 30).2.1 - ((200:ℕ) : ℤ)).natAbs ≤ 2 ∧
    ((U.roundTrip 10 200 30).2.2 - ((30:ℕ) : ℤ)).natAbs ≤ 2 :=
  hsl_roundtrip_within_two 10 200 30 (by decide) (by decide) (by decide)

lemma obind_step {α β : Type} {x : Option α} {f : α → Option β} {b : β}
    (h : x >>= f = some b) : ∃ a, x = some a ∧ f a = some b := by
  rw [Option.bind_eq_bind] at h
  exact Option.bind_eq_some'.1 h

/-- C5: in every palette produced by `generate_terminal_colors`, the
normal `blue` slot is the accent string itself — it never goes through
the 15% harmonization or any other adjustment (in both the dark- and
light-background branches the source assigns `blue = accent`). -/
theorem terminal_blue_eq_accent (accent background : String) (pal : CE.TerminalColors)
    (h : CE.generateTerminalColors accent background = some pal) : pal.blue = accent := by
  unfold CE.generateTerminalColors at h
  obtain ⟨bb, _, h⟩ := obind_step h
  try dsimp only at h
  obtain ⟨aRGB, _, h⟩ := obind_step h
  try dsimp only at h
  by_cases hdk : bb < 127500
  · rw [if_pos hdk] at h
    obtain ⟨ba, _, h⟩ := obind_step h
    try dsimp only at h
    obtain ⟨cc, _, h⟩ := obind_step h
    try dsimp only at h
    obtain ⟨red, _, h⟩ := obind_step h
    try dsimp only at h
    obtain ⟨green, _, h⟩ := obind_step h
    try dsimp only at h
    obtain ⟨yellow, _, h⟩ := obind_step h
    try dsimp only at h
    obtain ⟨magenta, _, h⟩ := obind_step h
    try dsimp only at h
    obtain ⟨cyan, _, h⟩ := obind_step h
    try dsimp only at h
    obtain ⟨bRed, _, h⟩ := obind_step h
    try dsimp only at h
    obtain ⟨bGreen, _, h⟩ := obind_step h
    try dsimp only at h
    obtain ⟨bYellow, _, h⟩ := obind_step h
    try dsimp only at h
    obtain ⟨bMagenta, _, h⟩ := obind_step h
    try dsimp only at h
    obtain ⟨bCyan, _, h⟩ := obind_step h
    try dsimp only at h
    rw [Option.pure_def] at h
    rw [← Option.some.inj h]
  · rw [if_neg hdk] at h
    obtain ⟨da, _, h⟩ := obind_step h
    try dsimp only at h
    obtain ⟨cc, _, h⟩ := obind_step h
    try dsimp only at h
    obtain ⟨red, _, h⟩ := obind_step h
    try dsimp only at h
    obtain ⟨green, _, h⟩ := obind_step h
    try dsimp only at h
    obtain ⟨yellow, _, h⟩ := obind_step h
    try dsimp only at h
    obtain ⟨magenta, _, h⟩ := obind_step h
    try dsimp only at h
    obtain ⟨cyan, _, h⟩ := obind_step h
    try dsimp only at h
    obtain ⟨bRed, _, h⟩ := obind_step h
    try dsimp only at h
    obtain ⟨bGreen, _, h⟩ := obind_step h
    try dsimp only at h
    obtain ⟨bYellow, _, h⟩ := obind_step h
    try dsimp only at h
    obtain ⟨bMagenta, _, h⟩ := obind_step h
    try dsimp only at h
    obtain ⟨bCyan, _, h⟩ := obind_step h
    try dsimp only at h
    rw [Option.pure_def] at h
    rw [← Option.some.inj h]

/-- C5 witness: the blue-slot contract at the concrete input
`("#FF0000", "#000000")`. -/
theorem terminal_blue_eq_accent_witness : palRedOnBlack.blue = "#FF0000" :=
  terminal_blue_eq_accent "#FF0000" "#000000" palRedOnBlack (by decide)

/-- C8 counterexample: with a decoder that succeeds and a quantizer that
raises, `extract_image_colors_enhanced` returns the non-empty edge
palette, so a quantization failure does not always result in the empty
list being returned. -/
theorem image_enhanced_quantization_cex :
    failPaletteLib.getPalette () 8 = .error () ∧
    IMG.extractImageColorsEnhanced failPaletteLib () 8 = .ok ["#010203"] ∧
    (["#010203"] : List String) ≠ [] := by
  exact ⟨rfl, rfl, by decide⟩

/-- C8 (amended): neither image extractor ever lets an exception escape —
both always return a list; a decode failure yields the empty list from
both; a quantization failure yields the empty list from
`extract_image_colors` (the enhanced variant merely drops the quantized
contribution and may still return edge colors). -/
theorem image_extraction_never_raises {ε Data Img : Type} (lib : IMG.ImageLib ε Data Img)
    (data : Data) (n : ℕ) :
    (∃ l, IMG.extractImageColors lib data n = .ok l) ∧
    (∃ l, IMG.extractImageColorsEnhanced lib data n = .ok l) ∧
    (∀ e, lib.imgOpen data = .error e →
      IMG.extractImageColors lib data n = .ok [] ∧
      IMG.extractImageColorsEnhanced lib data n = .ok []) ∧
    (∀ img fmt e, lib.imgOpen data = .ok img → lib.imgFormat img = some fmt →
      lib.getPalette data n = .error e → IMG.extractImageColors lib data n = .ok []) := by
  refine ⟨?_, ?_, ?_, ?_⟩
  · unfold IMG.extractImageColors IMG.pyCatch
    rcases hopen : lib.imgOpen data with e | img
    · exact ⟨[], rfl⟩
    · dsimp only
      rcases hfmt : lib.imgFormat img with _ | fmt
      · exact ⟨[], rfl⟩
      · dsimp only
        rcases hpal : lib.getPalette data n with e | pl
        · exact ⟨[], rfl⟩
        · exact ⟨_, rfl⟩
  · unfold IMG.extractImageColorsEnhanced IMG.pyCatch
    rcases hopen : lib.imgOpen data with e | img
    · exact ⟨[], rfl⟩
    · dsimp only
      rcases hfmt : lib.imgFormat img with _ | fmt
      · exact ⟨[], rfl⟩
      · exact ⟨_, rfl⟩
  · intro e he
    constructor
    · unfold IMG.extractImageColors IMG.pyCatch
      rw [he]
    · unfold IMG.extractImageColorsEnhanced IMG.pyCatch
      rw [he]
  · intro img fmt e h1 h2 h3
    unfold IMG.extractImageColors IMG.pyCatch
    rw [h1]
    dsimp only
    rw [h2]
    dsimp only
    rw [h3]

/-- C8 witness: the never-raise theorem applied to the concrete
environment whose quantizer fails (base extractor returns `[]`). -/
theorem image_extraction_never_raises_witness :
    IMG.extractImageColors failPaletteLib () 8 = Except.ok [] :=
  (image_extraction_never_raises failPaletteLib () 8).2.2.2 () "PNG" () rfl rfl rfl

/-- C7: `select_foreground_color` returns `#FFFFFF` exactly when the
perceived brightness of the background is below 0.5, and `#000000`
otherwise; in particular black maps to white text and white to black
text. -/
theorem foreground_brightness_rule :
    (∀ (bg : String) (q : ℚ), CE.getColorBrightness bg = some q →
      ((CE.selectForegroundColor bg = some "#FFFFFF") ↔ q < 1/2) ∧
      ((CE.selectForegroundColor bg = some "#000000") ↔ ¬(q < 1/2))) ∧
    CE.selectForegroundColor "#000000" = some "#FFFFFF" ∧
    CE.selectForegroundColor "#FFFFFF" = some "#000000" := by
  refine ⟨?_, by decide, by decide⟩
  intro bg q hq
  unfold CE.getColorBrightness at hq
  rcases hmem : CE.hexToRgb bg with _ | t
  · rw [hmem] at hq
    simp at hq
  · rw [hmem] at hq
    simp only [Option.map_some', Option.some.injEq] at hq
    obtain ⟨r, g, b⟩ := t
    unfold CE.selectForegroundColor CE.isDarkColor CE.brightness1000
    rw [hmem]
    simp only [Option.map_some']
    dsimp only at hq ⊢
    have hiff : q < 1/2 ↔ 299 * r + 587 * g + 114 * b < 127500 := by
      rw [← hq, div_lt_iff₀ (by norm_num : (0:ℚ) < 255000)]
      norm_num
      exact_mod_cast Iff.rfl
    simp only [decide_eq_true_eq]
    by_cases hlt : 299 * r + 587 * g + 114 * b < 127500
    · rw [if_pos hlt]
      exact ⟨iff_of_true rfl (hiff.mpr hlt),
        iff_of_false (by decide) (not_not_intro (hiff.mpr hlt))⟩
    · rw [if_neg hlt]
      exact ⟨iff_of_false (by decide) (fun hc => hlt (hiff.mp hc)),
        iff_of_true rfl (fun hc => hlt (hiff.mp hc))⟩

lemma black_brightness_zero : CE.getColorBrightness "#000000" = some 0 := by
  unfold CE.getColorBrightness
  rw [(by decide : CE.hexToRgb "#000000" = some (0, 0, 0))]
  simp

/-- C7 witness: the brightness rule applied at the concrete background
`#000000`, whose perceived brightness is 0. -/
theorem foreground_brightness_rule_witness :
    (CE.selectForegroundColor "#000000" = some "#FFFFFF") ↔ ((0:ℚ) < 1/2) :=
  (foreground_brightness_rule.1 "#000000" 0 black_brightness_zero).1

/-- C2 counterexample: on the all-light candidate list `["#FFFFFF"]` with
`prefer_dark = True`, `select_background_color` returns the first light
candidate `#FFFFFF`, not the `#1E1E1E` fallback the claim asserts for
all-light lists. -/
theorem background_all_light_cex :
    CE.selectBackgroundColor ["#FFFFFF"] true = some "#FFFFFF" ∧
    CE.isDarkColor "#FFFFFF" = some false ∧
    "#FFFFFF" ≠ "#1E1E1E" := by decide

/-- C2 (amended): with `prefer_dark = True` and outside the hardcoded
`#FFFFFF`/`#F0F0F0`/`#EEEEEE` special case, `select_background_color`
returns the first dark candidate when one exists (so
`["#FFFFFF","#000000","#FF0000"]` yields `#000000`); when every candidate
is light it returns the first light candidate — `#1E1E1E` is produced
only by the empty list or by the special-case triple. -/
theorem background_selection_amended :
    (CE.selectBackgroundColor ["#FFFFFF", "#000000", "#FF0000"] true = some "#000000") ∧
    (∀ (colors : List String) (flags : List Bool) (d : String) (ds : List String),
      CE.mapIsDark colors = some flags →
      ¬("#FFFFFF" ∈ colors ∧ "#F0F0F0" ∈ colors ∧ "#EEEEEE" ∈ colors) →
      ((colors.zip flags).filter (fun p => p.2)).map Prod.fst = d :: ds →
      CE.selectBackgroundColor colors true = some d) ∧
    (∀ (colors : List String) (flags : List Bool) (c : String) (cs : List String),
      colors = c :: cs →
      CE.mapIsDark colors = some flags →
      ¬("#FFFFFF" ∈ colors ∧ "#F0F0F0" ∈ colors ∧ "#EEEEEE" ∈ colors) →
      (∀ f ∈ flags, f = false) →
      CE.selectBackgroundColor colors true = some c) := by
  refine ⟨by decide, ?_, ?_⟩
  · intro colors flags d ds hmap hno hdark
    have hne : colors ≠ [] := by
      rintro rfl
      unfold CE.mapIsDark at hmap
      obtain rfl := Option.some.inj hmap
      simp at hdark
    unfold CE.selectBackgroundColor
    rw [if_neg (by simpa using hne), if_neg hno]
    rw [hmap, Option.bind_eq_bind, Option.some_bind']
    dsimp only
    rw [if_pos rfl, hdark]
    rfl
  · intro colors flags c cs hcons hmap hno hallf
    subst hcons
    unfold CE.selectBackgroundColor
    rw [if_neg (by simp), if_neg hno]
    rw [hmap, Option.bind_eq_bind, Option.some_bind']
    dsimp only
    rw [if_pos rfl]
    have hdark_nil : (((c :: cs).zip flags).filter (fun p => p.2)) = [] := by
      refine List.filter_eq_nil_iff.mpr ?_
      rintro ⟨p1, p2⟩ hp
      have h2 := (List.of_mem_zip hp).2
      simp [hallf _ h2]
    rw [hdark_nil]
    rcases flags with _ | ⟨f0, fs⟩
    · unfold CE.mapIsDark at hmap
      obtain ⟨f0, h1, hmap⟩ := obind_step hmap
      try dsimp only at hmap
      obtain ⟨fs, h2, hmap⟩ := obind_step hmap
      try dsimp only at hmap
      rw [Option.pure_def] at hmap
      exact absurd (Option.some.inj hmap) (by simp)
    · have hf0 : f0 = false := hallf f0 (by simp)
      subst hf0
      have hlight : (((c :: cs).zip (false :: fs)).filter (fun p => !p.2)).map Prod.fst =
          c :: ((cs.zip fs).filter (fun p => !p.2)).map Prod.fst := by
        simp [List.zip_cons_cons, List.filter_cons]
      rw [hlight]
      rfl

/-- C2 witness: the first-dark rule applied to `["#FFFFFF", "#000000"]`
with its darkness flags `[false, true]`. -/
theorem background_selection_amended_witness :
    CE.selectBackgroundColor ["#FFFFFF", "#000000"] true = some "#000000" :=
  background_selection_amended.2.1 ["#FFFFFF", "#000000"] [false, true] "#000000" []
    (by decide) (by decide) (by decide)

/-- C1 (amended): outside the hardcoded 4-entry `#333333` special case of
`select_colors_for_theme`, whenever the selection succeeds and
`_analyze_and_print_colors` found a red-ish candidate (the last one with
`R > 150`, `G < 100`, `B < 100`), that candidate is returned as the
accent, overriding the distance/polarity loop of `_select_accent`. -/
theorem screenshot_red_override_amended (edge : String → Bool)
    (dc : List (String × ℚ)) (preferLight : Bool) (res : SS.ThemeColors) (c : String)
    (hres : SS.selectColorsForTheme edge dc preferLight = some res)
    (hred : SS.analyzeAndPrintColors dc = some (some c))
    (hspec : ¬(dc.length = 4 ∧ dc.any (fun p => p.1 == "#333333") = true ∧
      preferLight = false)) :
    res.accent = c := by
  unfold SS.selectColorsForTheme at hres
  rw [if_neg hspec] at hres
  by_cases hemp : dc.isEmpty = true
  · rw [List.isEmpty_iff] at hemp
    subst hemp
    simp [SS.analyzeAndPrintColors] at hred
  · rw [if_neg hemp] at hres
    obtain ⟨rk, h1, hres⟩ := obind_step hres
    rw [hred] at h1
    obtain rfl := Option.some.inj h1
    try dsimp only at hres
    obtain ⟨pbpa, h2, hres⟩ := obind_step hres
    try dsimp only at hres
    obtain ⟨bgL, h3, hres⟩ := obind_step hres
    try dsimp only at hres
    obtain ⟨acc, h4, hres⟩ := obind_step hres
    try dsimp only at hres
    unfold SS.selectAccent at h4
    obtain ⟨fgL, h5, h4⟩ := obind_step h4
    try dsimp only at h4
    obtain ⟨lr, h6, h4⟩ := obind_step h4
    try dsimp only at h4
    rw [Option.pure_def] at h4
    rw [Option.pure_def] at hres
    rw [← Option.some.inj hres]
    exact (Option.some.inj h4).symm

/-- C1 witness: the amended red-override rule at the single-candidate
list `[("#FF2020", 1)]` with `prefer_light = False`. -/
theorem screenshot_red_override_amended_witness :
    (⟨"#FF2020", "#FFFFFF", "#FF2020"⟩ : SS.ThemeColors).accent = "#FF2020" :=
  screenshot_red_override_amended (fun _ => false) [("#FF2020", 1)] false
    ⟨"#FF2020", "#FFFFFF", "#FF2020"⟩ "#FF2020" (by decide) (by decide) (by decide)

end WarpTheme
